import Mathlib

/-!
Verification of the narrative-to-UML extraction engine
(`uml_extractors.py`, `scripts/normalize_components.py`,
`scripts/normalization_config_loader.py`).

The Python code is shallowly embedded: Python strings become `List Char`,
dictionaries become insertion-ordered association lists, sets become lists
with membership tests, and the few regular expressions of the
canonicalization tables are embedded through a small executable matcher.
-/

namespace FYP

/-! ### ASCII character helpers (Python `str` semantics on ASCII text) -/

/-- Lowercase ASCII letter test. -/
def isLowerAlpha (c : Char) : Bool := 97 ≤ c.toNat && c.toNat ≤ 122

/-- Uppercase ASCII letter test. -/
def isUpperAlpha (c : Char) : Bool := 65 ≤ c.toNat && c.toNat ≤ 90

/-- ASCII letter test (the "cased" characters of the text handled here). -/
def isAlphaCh (c : Char) : Bool := isLowerAlpha c || isUpperAlpha c

/-- ASCII digit test. -/
def isDigitCh (c : Char) : Bool := 48 ≤ c.toNat && c.toNat ≤ 57

/-- Python regex `\w`: letters, digits and underscore. -/
def isWordCh (c : Char) : Bool := isAlphaCh c || isDigitCh c || c == '_'

/-- Python regex `\s` / `str.strip` whitespace, restricted to ASCII. -/
def isSpaceCh (c : Char) : Bool := c == ' ' || c == '\t' || c == '\n' || c == '\r'

/-- Python `str.lower` on one ASCII character. -/
def lowerCh (c : Char) : Char := if isUpperAlpha c then Char.ofNat (c.toNat + 32) else c

/-- Python `str.upper` on one ASCII character. -/
def upperCh (c : Char) : Char := if isLowerAlpha c then Char.ofNat (c.toNat - 32) else c

/-! ### Python string operations on `List Char` -/

/-- Python `str.lower`. -/
def pyLower (l : List Char) : List Char := l.map lowerCh

/-- Python `str.upper`. -/
def pyUpper (l : List Char) : List Char := l.map upperCh

/-- Python `str.strip()` (strip whitespace on both ends). -/
def pyStrip (l : List Char) : List Char :=
  ((l.dropWhile isSpaceCh).reverse.dropWhile isSpaceCh).reverse

/-- Python `str.strip(chars)` for an explicit character set. -/
def pyStripChars (chars : List Char) (l : List Char) : List Char :=
  ((l.dropWhile (chars.contains ·)).reverse.dropWhile (chars.contains ·)).reverse

/-- Python `str.capitalize`: first character uppercased, the rest lowercased. -/
def pyCapitalize : List Char → List Char
  | [] => []
  | c :: rest => upperCh c :: rest.map lowerCh

/-- Helper for `pyTitle`: the flag records whether the previous character was a letter. -/
def pyTitleAux : Bool → List Char → List Char
  | _, [] => []
  | prevAlpha, c :: rest =>
    (if isAlphaCh c then (if prevAlpha then lowerCh c else upperCh c) else c)
      :: pyTitleAux (isAlphaCh c) rest

/-- Python `str.title` on ASCII text: a letter is uppercased exactly when the
preceding character is not a letter. -/
def pyTitle (l : List Char) : List Char := pyTitleAux false l

/-- Does `l` start with `p` (character-exact)? -/
def startsWithL : List Char → List Char → Bool
  | _, [] => true
  | [], _ :: _ => false
  | c :: cs, p :: ps => c == p && startsWithL cs ps

/-- Does `l` end with `p`? -/
def endsWithL (l p : List Char) : Bool := startsWithL l.reverse p.reverse

/-- Python substring test `p in l`. -/
def containsSub (l p : List Char) : Bool :=
  if startsWithL l p then true
  else match l with
    | [] => false
    | _ :: rest => containsSub rest p

/-- Python `str.find`: index of the first occurrence of `p` in `l`, if any. -/
def findSub (l p : List Char) : Option Nat :=
  if startsWithL l p then some 0
  else match l with
    | [] => none
    | _ :: rest => (findSub rest p).map (· + 1)

/-- Take the part of `l` strictly before the first occurrence of character `c`. -/
def takeUntilCh (c : Char) (l : List Char) : List Char := l.takeWhile (fun d => !(d == c))

/-- Remove every plain space character (Python `str.replace(" ", "")`). -/
def removeSpaces (l : List Char) : List Char := l.filter (fun c => !(c == ' '))

/-- Drop a trailing run of whitespace. -/
def dropTrailingWs (l : List Char) : List Char := (l.reverse.dropWhile isSpaceCh).reverse

/-! ### A small executable matcher for the regexes of the canonicalization tables

The hardcoded canonicalization tables of `normalize_components.py` only use
literals, alternation, optional groups, single-character classes, `\s+` and
`\b`, so the abstract syntax below covers them with no general Kleene star. -/

/-- Regex abstract syntax for the patterns appearing in the source. -/
inductive RE : Type where
  | eps : RE
  | lit : List Char → RE
  | cls : (Char → Bool) → RE
  | ws1 : RE
  | opt : RE → RE
  | alt : RE → RE → RE
  | cat : RE → RE → RE
  | wb : RE
  | eol : RE

/-- Python `\b`: true when exactly one of (previous character, next character)
is a word character; the edges of the string count as non-word. -/
def wordBoundary (prev : Option Char) (cs : List Char) : Bool :=
  (match prev with | none => false | some c => isWordCh c)
    != (match cs with | [] => false | c :: _ => isWordCh c)

/-- Match a literal character sequence, then continue with `k`.  The `prev`
argument carries the last consumed character (for `\b`). -/
def litM : List Char → Option Char → List Char → (Option Char → List Char → Bool) → Bool
  | [], p, cs, k => k p cs
  | a :: as, _, cs, k =>
    match cs with
    | [] => false
    | c :: rest => c == a && litM as (some c) rest k

/-- After one whitespace character has been consumed, `\s+` may stop or
consume further whitespace (all splits are tried). -/
def wsM (p : Option Char) (cs : List Char) (k : Option Char → List Char → Bool) : Bool :=
  k p cs ||
    match cs with
    | [] => false
    | c :: rest => isSpaceCh c && wsM (some c) rest k

/-- Continuation-passing regex matcher: does some prefix of `cs` match `r`,
with `k` accepting the remainder?  Backtracking is complete, so for a boolean
result the greediness of the Python engine is irrelevant. -/
def reM : RE → Option Char → List Char → (Option Char → List Char → Bool) → Bool
  | .eps, p, cs, k => k p cs
  | .lit s, p, cs, k => litM s p cs k
  | .cls f, _, cs, k =>
    (match cs with
     | [] => false
     | c :: rest => f c && k (some c) rest)
  | .ws1, _, cs, k =>
    (match cs with
     | [] => false
     | c :: rest => isSpaceCh c && wsM (some c) rest k)
  | .opt r, p, cs, k => reM r p cs k || k p cs
  | .alt r s, p, cs, k => reM r p cs k || reM s p cs k
  | .cat r s, p, cs, k => reM r p cs (fun p2 cs2 => reM s p2 cs2 k)
  | .wb, p, cs, k => wordBoundary p cs && k p cs
  | .eol, p, cs, k => cs.isEmpty && k p cs

/-- Try to match `r` at every start position of the remaining text. -/
def reSearchAux (r : RE) : Option Char → List Char → Bool
  | p, cs =>
    reM r p cs (fun _ _ => true) ||
      match cs with
      | [] => false
      | c :: rest => reSearchAux r (some c) rest

/-- Python `re.search(r, cs)` as a boolean. -/
def reSearch (r : RE) (cs : List Char) : Bool := reSearchAux r none cs

/-- Python `re.match(r, cs)` (anchored at the start) as a boolean. -/
def reMatchStart (r : RE) (cs : List Char) : Bool := reM r none cs (fun _ _ => true)

/-- Concatenation of a list of regexes. -/
def rcat (l : List RE) : RE := l.foldr RE.cat RE.eps

/-- Literal regex from a string. -/
def rstr (s : String) : RE := RE.lit s.toList

/-! ### The hardcoded canonicalization tables of `normalize_components.py`

Each table is an ordered list of `(regex, canonical name)` pairs, mirroring
the insertion-ordered Python dictionaries `CANONICAL_COMPONENTS`,
`CANONICAL_NODES`, `CANONICAL_DEVICES`, `CANONICAL_ENVIRONMENTS`,
`CANONICAL_INTERFACES` and `CANONICAL_EXTERNAL_SYSTEMS`.  The patterns are
matched against lowercased text, so the embedded literals are lowercase. -/

/-- `(a\s+|the\s+)?` — the optional leading-article group of the database patterns. -/
def optArticle : RE :=
  .opt (.alt (rcat [rstr "a", .ws1]) (rcat [rstr "the", .ws1]))

/-- `(\s+database|\s+db)?`. -/
def optDbSuffix : RE :=
  .opt (.alt (rcat [.ws1, rstr "database"]) (rcat [.ws1, rstr "db"]))

/-- `(\s+database|\s+db|\s+server)?`. -/
def optDbServerSuffix : RE :=
  .opt (.alt (rcat [.ws1, rstr "database"])
    (.alt (rcat [.ws1, rstr "db"]) (rcat [.ws1, rstr "server"])))

/-- Embedding of `CANONICAL_COMPONENTS`. -/
def CANONICAL_COMPONENTS : List (RE × String) :=
  [ (rcat [.wb, .opt (rcat [rstr "external", .ws1]), rstr "stripe",
      .opt (rcat [.ws1, rstr "payment"]), .opt (rcat [.ws1, rstr "gateway"]), .wb],
     "Stripe Gateway"),
    (rcat [.wb, .opt (rcat [rstr "external", .ws1]), rstr "paypal",
      .opt (rcat [.ws1, rstr "payment"]), .opt (rcat [.ws1, rstr "gateway"]), .wb],
     "PayPal"),
    (rcat [.wb, optArticle, rstr "postgresql", optDbSuffix, .wb], "PostgreSQL"),
    (rcat [.wb, optArticle, rstr "postgres", optDbSuffix, .wb], "PostgreSQL"),
    (rcat [.wb, optArticle, rstr "mysql", optDbSuffix, .wb], "MySQL"),
    (rcat [.wb, optArticle, rstr "mongo", .opt (rstr "db"), optDbSuffix, .wb], "MongoDB"),
    (rcat [.wb, rstr "redis",
      .opt (.alt (rcat [.ws1, rstr "cache"]) (rcat [.ws1, rstr "db"])), .wb], "Redis"),
    (rcat [.wb, rstr "backend",
      .opt (.alt (rcat [.ws1, rstr "service", .opt (rstr "s")]) (rcat [.ws1, rstr "api"])), .wb],
     "Backend Service"),
    (rcat [.wb, .alt (rstr "rest") (rstr "restful"), .opt (rcat [.ws1, rstr "api"]), .wb],
     "REST API"),
    (rcat [.wb, rstr "graphql", .opt (rcat [.ws1, rstr "api"]), .wb], "GraphQL API") ]

/-- Embedding of `CANONICAL_NODES`. -/
def CANONICAL_NODES : List (RE × String) :=
  [ (rcat [.wb, optArticle, rstr "postgresql", optDbServerSuffix, .wb], "PostgreSQL"),
    (rcat [.wb, optArticle, rstr "postgres", optDbServerSuffix, .wb], "PostgreSQL"),
    (rcat [.wb, optArticle, rstr "mysql", optDbServerSuffix, .wb], "MySQL"),
    (rcat [.wb, optArticle, rstr "mongo", .opt (rstr "db"), optDbServerSuffix, .wb], "MongoDB"),
    (rcat [.wb, .opt (.alt (rcat [rstr "in", .ws1]) (rcat [rstr "on", .ws1])),
      rstr "docker", .ws1, rstr "container", .opt (rstr "s"), .wb], "Docker Container"),
    (rcat [.wb, rstr "kubernetes",
      .opt (.alt (rcat [.ws1, rstr "pod", .opt (rstr "s")]) (rcat [.ws1, rstr "cluster"])), .wb],
     "Kubernetes"),
    (rcat [.wb, rstr "linux", .ws1, rstr "server", .opt (rstr "s"), .wb], "Linux Server"),
    (rcat [.wb, rstr "server", .opt (rcat [.ws1, rstr "instance"]), .opt (rstr "s"), .wb],
     "Server") ]

/-- Embedding of `CANONICAL_DEVICES`. -/
def CANONICAL_DEVICES : List (RE × String) :=
  [ (rcat [.wb, .opt (.alt (rcat [rstr "via", .ws1]) (rcat [rstr "through", .ws1])),
      rstr "web", .ws1, rstr "browser", .opt (rstr "s"), .wb], "Web Browser"),
    (rcat [.wb, .opt (.alt (rcat [rstr "via", .ws1]) (rcat [rstr "through", .ws1])),
      rstr "mobile", .ws1, rstr "browser", .opt (rstr "s"), .wb], "Mobile Browser"),
    (rcat [.wb, .opt (.alt (rcat [rstr "via", .ws1]) (rcat [rstr "through", .ws1])),
      rstr "desktop", .ws1, rstr "browser", .opt (rstr "s"), .wb], "Web Browser"),
    (rcat [.wb, rstr "browser", .opt (rstr "s"), .wb], "Web Browser"),
    (rcat [.wb, .opt (.alt (rcat [rstr "and", .ws1]) (rcat [rstr "via", .ws1])),
      rstr "mobile", .ws1,
      .alt (rcat [rstr "device", .opt (rstr "s")]) (rcat [rstr "application", .opt (rstr "s")]),
      .wb], "Mobile Device"),
    (rcat [.wb, rstr "smartphone", .opt (rstr "s"), .wb], "Smartphone"),
    (rcat [.wb, rstr "desktop", .ws1,
      .alt (rcat [rstr "client", .opt (rstr "s")]) (rcat [rstr "computer", .opt (rstr "s")]),
      .wb], "Desktop") ]

/-- Embedding of `CANONICAL_ENVIRONMENTS`. -/
def CANONICAL_ENVIRONMENTS : List (RE × String) :=
  [ (rcat [.wb, rstr "docker", .opt (rcat [.ws1, rstr "container"]), .wb], "Docker"),
    (rcat [.wb, rstr "kubernetes", .wb], "Kubernetes"),
    (rcat [.wb, rstr "k8s", .wb], "Kubernetes") ]

/-- Embedding of `CANONICAL_INTERFACES`. -/
def CANONICAL_INTERFACES : List (RE × String) :=
  [ (rcat [.wb, rstr "rest",
      .opt (.alt (rcat [.ws1, rstr "api"]) (rcat [.ws1, rstr "endpoint", .opt (rstr "s")])),
      .wb], "REST API"),
    (rcat [.wb, rstr "graphql",
      .opt (.alt (rcat [.ws1, rstr "api"]) (rcat [.ws1, rstr "endpoint"])), .wb],
     "GraphQL API"),
    (rcat [.wb, rstr "grpc", .opt (rcat [.ws1, rstr "service"]), .wb], "gRPC") ]

/-- Embedding of `CANONICAL_EXTERNAL_SYSTEMS`. -/
def CANONICAL_EXTERNAL_SYSTEMS : List (RE × String) :=
  [ (rcat [.wb, rstr "stripe", .wb], "Stripe"),
    (rcat [.wb, rstr "paypal", .wb], "PayPal"),
    (rcat [.wb, rstr "twilio", .wb], "Twilio") ]

/-! ### `_apply_canonical_map` and the configuration layer -/

/-- The for-loop of `_apply_canonical_map`: return the canonical name of the
first pattern in table order whose regex matches the (already lowercased and
stripped) name. -/
def canonicalLoop : List (RE × String) → List Char → Option String
  | [], _ => none
  | (p, c) :: rest, nl => if reSearch p nl then some c else canonicalLoop rest nl

/-- `_apply_canonical_map(name, mapping)`: lowercase and strip the name, then
scan the table in order. -/
def apply_canonical_map (mapping : List (RE × String)) (name : List Char) : Option String :=
  canonicalLoop mapping (pyStrip (pyLower name))

/-- Modelled from the spec: the user-editable configuration rule file
`normalization_config.json` is not part of the sources; §6 of the spec
describes it as an external normalization-rule file with per-category rule
sets, enable switches and cleaning policies.  `NormalizationConfig` therefore
carries the policy flags read by `normalization_config_loader.py` and, for
each category, the compiled config patterns as functions returning the length
of the leftmost regex match (`match.end() - match.start()` in
`NormalizationConfig.apply_patterns`). -/
structure NormalizationConfig where
  enabled : Bool
  remove_articles : Bool
  normalize_whitespace : Bool
  apply_title_case : Bool
  apply_patterns_policy : Bool
  patternsFor : String → List ((List Char → Option Nat) × String)

/-- Modelled from the spec: the default configuration state used throughout —
all policies enabled (the loader defaults every policy to `True` when absent)
and no user-defined patterns. -/
def defaultConfig : NormalizationConfig :=
  { enabled := true
    remove_articles := true
    normalize_whitespace := true
    apply_title_case := true
    apply_patterns_policy := true
    patternsFor := fun _ => [] }

/-- One scored match of `NormalizationConfig.apply_patterns`:
(match length, canonical name). -/
abbrev ScoredMatch := Nat × String

/-- Insert into a descending-by-length list, after all entries of length `≥`
the new one: this reproduces the stable `matches.sort(key=..., reverse=True)`
of Python, which keeps the original order among equal lengths. -/
def insertDesc (x : ScoredMatch) : List ScoredMatch → List ScoredMatch
  | [] => [x]
  | y :: ys => if x.1 ≤ y.1 then y :: insertDesc x ys else x :: y :: ys

/-- Stable descending sort by match length. -/
def stableSortDesc (l : List ScoredMatch) : List ScoredMatch :=
  l.foldl (fun acc x => insertDesc x acc) []

/-- `NormalizationConfig.apply_patterns(text, category)`: collect every
matching config pattern with its leftmost-match length, sort stably by length
descending, and return the canonical name of the head. -/
def config_apply_patterns (cfg : NormalizationConfig) (text : List Char)
    (category : String) : Option String :=
  if !cfg.apply_patterns_policy then none
  else
    let patterns := cfg.patternsFor category
    if patterns.isEmpty then none
    else
      let tl := pyLower text
      let scored := patterns.filterMap (fun pr => (pr.1 tl).map (fun len => (len, pr.2)))
      match stableSortDesc scored with
      | [] => none
      | m :: _ => some m.2

/-! ### `_clean_text` -/

/-- `re.sub(r'^(w1|w2|...)\s+', '', t, flags=IGNORECASE)` for a list of
literal word alternatives, tried in order: if the text starts with a word
(case-insensitively) followed by at least one whitespace character, drop the
word and the whole whitespace run. -/
def dropLeadingWordOf (words : List String) (t : List Char) : List Char :=
  match words.findSome? (fun w =>
    let wl := w.toList
    if startsWithL (pyLower t) wl then
      let rest := t.drop wl.length
      match rest with
      | [] => none
      | c :: _ => if isSpaceCh c then some (rest.dropWhile isSpaceCh) else none
    else none) with
  | some r => r
  | none => t

/-- `re.sub(r'\s+and$', '', t, flags=IGNORECASE)`: remove a final "and"
together with the maximal whitespace run immediately before it. -/
def dropTrailingAnd (t : List Char) : List Char :=
  if endsWithL (pyLower t) "and".toList then
    let t1 := t.take (t.length - 3)
    match t1.reverse with
    | [] => t
    | c :: _ => if isSpaceCh c then dropTrailingWs t1 else t
  else t

/-- `re.sub(r'\s+', ' ', t)`: collapse every whitespace run to one space. -/
def collapseWsAux : Bool → List Char → List Char
  | _, [] => []
  | prevWs, c :: rest =>
    if isSpaceCh c then
      (if prevWs then collapseWsAux true rest else ' ' :: collapseWsAux true rest)
    else c :: collapseWsAux false rest

/-- Whitespace-run collapsing (`normalize_whitespace` policy). -/
def collapseWs (t : List Char) : List Char := collapseWsAux false t

/-- `_clean_text(text)`: strip, optionally remove a leading article, a leading
"and", a trailing "and" and a leading preposition, optionally collapse
whitespace, optionally title-case, and strip again. -/
def clean_text (cfg : NormalizationConfig) (text : List Char) : List Char :=
  if text = [] then []
  else
    let t := pyStrip text
    let t :=
      if cfg.remove_articles then
        let t := dropLeadingWordOf ["the", "a", "an"] t
        let t := dropLeadingWordOf ["and"] t
        let t := dropTrailingAnd t
        dropLeadingWordOf ["via", "through", "in", "on"] t
      else t
    let t := if cfg.normalize_whitespace then collapseWs t else t
    let t := if cfg.apply_title_case then pyTitle t else t
    pyStrip t

/-! ### The six per-category normalization functions -/

/-- The common body of `normalize_component_name`, `normalize_node_name`,
`normalize_device_name`, `normalize_environment_name`, `normalize_interface`
and `normalize_external_system`: hardcoded table first, then the config rule
set (when enabled), then `_clean_text`. -/
def normalizeWith (table : List (RE × String)) (category : String)
    (cfg : NormalizationConfig) (name : List Char) : List Char :=
  if name = [] then []
  else
    match apply_canonical_map table name with
    | some c => c.toList
    | none =>
      if cfg.enabled && cfg.apply_patterns_policy then
        match config_apply_patterns cfg name category with
        | some c => c.toList
        | none => clean_text cfg name
      else clean_text cfg name

/-- `normalize_component_name`. -/
def normalize_component_name (cfg : NormalizationConfig) (name : List Char) : List Char :=
  normalizeWith CANONICAL_COMPONENTS "components" cfg name

/-- `normalize_node_name`. -/
def normalize_node_name (cfg : NormalizationConfig) (name : List Char) : List Char :=
  normalizeWith CANONICAL_NODES "nodes" cfg name

/-- `normalize_device_name`. -/
def normalize_device_name (cfg : NormalizationConfig) (name : List Char) : List Char :=
  normalizeWith CANONICAL_DEVICES "devices" cfg name

/-- `normalize_environment_name`. -/
def normalize_environment_name (cfg : NormalizationConfig) (name : List Char) : List Char :=
  normalizeWith CANONICAL_ENVIRONMENTS "environments" cfg name

/-- `normalize_interface`. -/
def normalize_interface (cfg : NormalizationConfig) (name : List Char) : List Char :=
  normalizeWith CANONICAL_INTERFACES "interfaces" cfg name

/-- `normalize_external_system`. -/
def normalize_external_system (cfg : NormalizationConfig) (name : List Char) : List Char :=
  normalizeWith CANONICAL_EXTERNAL_SYSTEMS "external_systems" cfg name

/-! ### Spec-side formulations of the canonicalization tiers (for claim C3/C5) -/

/-- Spec-side tier 1: the canonical name of the first pattern in table order
whose regex matches the lowercased, stripped input. -/
def specFirstMatch (mapping : List (RE × String)) (name : List Char) : Option String :=
  (mapping.find? (fun pr => reSearch pr.1 (pyStrip (pyLower name)))).map Prod.snd

/-- One step of the "longest match wins, earliest at ties" selection. -/
def bestStep (o : Option ScoredMatch) (x : ScoredMatch) : Option ScoredMatch :=
  some (match o with
        | none => x
        | some y => if x.1 ≤ y.1 then y else x)

/-- Spec-side "longest matched span wins" over a list of scored matches,
keeping the earliest entry on ties. -/
def specLongestOf (l : List ScoredMatch) : Option ScoredMatch := l.foldl bestStep none

/-- Spec-side tier 2: among all matching config patterns, the canonical name
of the one with the longest matched span (earliest at ties). -/
def specLongestConfig (cfg : NormalizationConfig) (text : List Char)
    (category : String) : Option String :=
  if !cfg.apply_patterns_policy then none
  else
    let patterns := cfg.patternsFor category
    if patterns.isEmpty then none
    else
      let tl := pyLower text
      let scored := patterns.filterMap (fun pr => (pr.1 tl).map (fun len => (len, pr.2)))
      (specLongestOf scored).map Prod.snd

/-- Spec-side tier 3 exactly as claim C3 words it: strip leading
articles/connectors/prepositions, collapse whitespace, title-case.  (It does
not mention the trailing-"and" removal performed by `_clean_text`.) -/
def claimGenericClean (cfg : NormalizationConfig) (text : List Char) : List Char :=
  if text = [] then []
  else
    let t := pyStrip text
    let t :=
      if cfg.remove_articles then
        dropLeadingWordOf ["via", "through", "in", "on"]
          (dropLeadingWordOf ["and"] (dropLeadingWordOf ["the", "a", "an"] t))
      else t
    let t := if cfg.normalize_whitespace then collapseWs t else t
    let t := if cfg.apply_title_case then pyTitle t else t
    pyStrip t

/-- The canonicalization procedure exactly as claim C3 states it:
first-match-wins hardcoded tier, then longest-wins config tier, then the
generic cleaning as worded in the claim. -/
def claimCanonicalize (table : List (RE × String)) (category : String)
    (cfg : NormalizationConfig) (name : List Char) : List Char :=
  if name = [] then []
  else
    match specFirstMatch table name with
    | some c => c.toList
    | none =>
      if cfg.enabled && cfg.apply_patterns_policy then
        match specLongestConfig cfg name category with
        | some c => c.toList
        | none => claimGenericClean cfg name
      else claimGenericClean cfg name

/-- The canonicalization procedure as claim C3 amended: identical except that
the generic-cleaning tier is the source's `_clean_text`, which also strips a
trailing "and" connector. -/
def claimCanonicalizeAmended (table : List (RE × String)) (category : String)
    (cfg : NormalizationConfig) (name : List Char) : List Char :=
  if name = [] then []
  else
    match specFirstMatch table name with
    | some c => c.toList
    | none =>
      if cfg.enabled && cfg.apply_patterns_policy then
        match specLongestConfig cfg name category with
        | some c => c.toList
        | none => clean_text cfg name
      else clean_text cfg name

/-! ### The behavioral extractor registries (`BaseDiagramExtractor`)

`model_elements`, `found_classes` and `found_relationships` become explicit
state; the Python dictionaries are insertion-ordered association lists. -/

/-- `re.sub(r'([a-z])([A-Z])', r'\1 \2', name)`: insert a space between a
lowercase letter and a following uppercase letter, scanning left to right and
resuming after each match. -/
def camelSplit : List Char → List Char
  | [] => []
  | [c] => [c]
  | a :: b :: rest =>
    if isLowerAlpha a && isUpperAlpha b then a :: ' ' :: b :: camelSplit rest
    else a :: camelSplit (b :: rest)

/-- `BaseDiagramExtractor._normalize_name`. -/
def pyNormalizeName (name : List Char) : List Char :=
  let name := pyStrip name
  if pyLower name = "addresses".toList then "Address".toList
  else if endsWithL (pyLower name) "esses".toList then
    pyCapitalize (name.take (name.length - 2))
  else removeSpaces (pyTitle (camelSplit name))

/-- `_normalize_name` on `String`. -/
def normName (s : String) : String := String.mk (pyNormalizeName s.toList)

/-- One attribute record `{name, visibility, type}`. -/
structure AttrRec where
  name : String
  visibility : String
  type : String
deriving DecidableEq

/-- One method parameter record. -/
structure ParamRec where
  name : String
  type : String
  direction : Option String
deriving DecidableEq

/-- One method record `{name, params, visibility, return_type}`. -/
structure MethRec where
  name : String
  params : List ParamRec
  visibility : String
  return_type : String
deriving DecidableEq

/-- The per-class registry value of `found_classes`. -/
structure ClassRec where
  attributes : List AttrRec
  methods : List MethRec
  stereotype : Option String
deriving DecidableEq

/-- One entry of `model_elements`. -/
inductive MElem : Type where
  | cls (name : String) (stereotype : Option String) (attributes : List AttrRec)
      (methods : List MethRec) (source_id : Nat)
  | rel (class_a class_b type : String) (card_a card_b : Option String) (source_id : Nat)
deriving DecidableEq

/-- The mutable registries of a behavioral extractor. -/
structure XState where
  model_elements : List MElem
  found_classes : List (String × ClassRec)
  found_relationships : List (String × String × String)
deriving DecidableEq

/-- A fresh extractor instance (`__init__`). -/
def initState : XState := ⟨[], [], []⟩

/-- Key lookup in `found_classes`. -/
def lookupClass (l : List (String × ClassRec)) (k : String) : Option ClassRec :=
  (l.find? (fun p => p.1 = k)).map Prod.snd

/-- Replace the value at key `k` (first occurrence). -/
def updateClass (l : List (String × ClassRec)) (k : String) (v : ClassRec) :
    List (String × ClassRec) :=
  l.map (fun p => if p.1 = k then (k, v) else p)

/-- `BaseDiagramExtractor._add_class`. -/
def add_class (st : XState) (name : String) (stereotype : Option String)
    (source_id : Nat) : XState :=
  let n := normName name
  if (lookupClass st.found_classes n).isSome then st
  else
    { st with
      found_classes := st.found_classes ++ [(n, ⟨[], [], stereotype⟩)]
      model_elements := st.model_elements ++ [.cls n stereotype [] [] source_id] }

/-- The per-story actor-addition block of `ClassDiagramExtractor.extract`
(lines 263–277): an already-normalized actor name is registered with
stereotype `actor` if absent. -/
def addActor (st : XState) (actor : String) (source_id : Nat) : XState :=
  if (lookupClass st.found_classes actor).isSome then st
  else
    { st with
      found_classes := st.found_classes ++ [(actor, ⟨[], [], some "actor"⟩)]
      model_elements := st.model_elements ++ [.cls actor (some "actor") [] [] source_id] }

/-- `BaseDiagramExtractor._add_attribute`: lowercase the attribute name,
append it to the registry entry if new, and refresh the attribute list of
every matching `Class` model element. -/
def add_attribute (st : XState) (class_name attr_name : String) (_source_id : Nat)
    (visibility type_hint : String) : XState :=
  let cn := normName class_name
  let an := String.mk (pyLower attr_name.toList)
  match lookupClass st.found_classes cn with
  | none => st
  | some cd =>
    if cd.attributes.any (fun a => a.name = an) then st
    else
      let newAttrs := cd.attributes ++ [⟨an, visibility, type_hint⟩]
      { st with
        found_classes := updateClass st.found_classes cn { cd with attributes := newAttrs }
        model_elements := st.model_elements.map (fun e =>
          match e with
          | .cls n s _ m sid => if n = cn then .cls n s newAttrs m sid else e
          | _ => e) }

/-- `BaseDiagramExtractor._add_method`: deduplicate on the lowercased method
name and refresh the method list of every matching `Class` model element. -/
def add_method (st : XState) (class_name method_name : String) (_source_id : Nat)
    (params : List ParamRec) (visibility return_type : String) : XState :=
  let cn := normName class_name
  match lookupClass st.found_classes cn with
  | none => st
  | some cd =>
    if cd.methods.any (fun m => pyLower m.name.toList = pyLower method_name.toList) then st
    else
      let newMeths := cd.methods ++ [⟨method_name, params, visibility, return_type⟩]
      { st with
        found_classes := updateClass st.found_classes cn { cd with methods := newMeths }
        model_elements := st.model_elements.map (fun e =>
          match e with
          | .cls n s a _ sid => if n = cn then .cls n s a newMeths sid else e
          | _ => e) }

/-- `BaseDiagramExtractor._add_relationship`: normalize both endpoint names,
and append a `Relationship` element only for a fresh `(from, to, kind)` key. -/
def add_relationship (st : XState) (class_a class_b rel_type : String)
    (card_a card_b : Option String) (source_id : Nat) : XState :=
  let an := normName class_a
  let bn := normName class_b
  if (an, bn, rel_type) ∈ st.found_relationships then st
  else
    { st with
      found_relationships := st.found_relationships ++ [(an, bn, rel_type)]
      model_elements := st.model_elements ++ [.rel an bn rel_type card_a card_b source_id] }

/-! ### `ClassDiagramExtractor.extract` -/

/-- One registry operation performed by the per-story body of
`ClassDiagramExtractor.extract`. -/
inductive Act : Type where
  | actor (name : String)
  | klass (name : String) (stereotype : Option String)
  | attrib (class_name attr_name : String) (visibility type_hint : String)
  | method (class_name method_name : String) (params : List ParamRec)
      (visibility return_type : String)
  | relate (class_a class_b rel_type : String) (card_a card_b : Option String)
deriving DecidableEq

/-- Apply one registry operation with the story's id as source id. -/
def applyAct (source_id : Nat) (st : XState) : Act → XState
  | .actor n => addActor st n source_id
  | .klass n s => add_class st n s source_id
  | .attrib c a v t => add_attribute st c a source_id v t
  | .method c m p v r => add_method st c m source_id p v r
  | .relate a b t ca cb => add_relationship st a b t ca cb source_id

/-- One user story, as seen by the embedded extractor.  The linguistic
analysis of the story text runs through the external spaCy parse and the
trained tagger, so it is modelled by its observable effect: the ordered
sequence of registry operations the per-story body performs, truncated at the
point where an exception is raised (`raises` records whether one was). -/
structure Story where
  id : Nat
  trace : List Act
  raises : Bool
deriving DecidableEq

/-- The per-story body inside `extract`'s `try`: the operations of the trace
are applied in order; if an exception follows, it is caught by the per-story
handler, which logs and continues, keeping all effects so far. -/
def processStory (st : XState) (s : Story) : XState :=
  s.trace.foldl (applyAct s.id) st

/-- The loop body of the User-inheritance post-processing pass: add an
Inheritance edge to "User" for an actor-stereotyped class other than "User"
and "System". -/
def inheritStep (acc : XState) (p : String × ClassRec) : XState :=
  if p.2.stereotype = some "actor" ∧ p.1 ≠ "User" ∧ p.1 ≠ "System" then
    add_relationship acc p.1 "User" "Inheritance" none none 0
  else acc

/-- Post-processing step 1 (lines 794–806): if a class named "User" is
present, add an Inheritance edge to "User" from every actor-stereotyped class
other than "User" and "System". -/
def userInheritance (st : XState) : XState :=
  if (lookupClass st.found_classes "User").isSome then
    st.found_classes.foldl inheritStep st
  else st

/-- The `has_crm` test of the "account" default branch. -/
def hasCrm (classes : List (String × ClassRec)) : Bool :=
  classes.any (fun p =>
    containsSub (pyLower p.1.toList) "lead".toList ||
      containsSub (pyLower p.1.toList) "opportunity".toList)

/-- The default attribute list of the passive-class branch (lines 835–870). -/
def passiveDefaults (acc : XState) (cnl : List Char) : List String :=
  if containsSub cnl "version".toList then ["versionNumber", "changeLog", "releaseDate"]
  else if containsSub cnl "report".toList || containsSub cnl "article".toList then
    ["title", "content", "publishedDate", "author"]
  else if containsSub cnl "inspection".toList then
    ["status", "scheduledDate", "result", "location"]
  else if containsSub cnl "file".toList then ["name", "size", "type", "path"]
  else if containsSub cnl "folder".toList then ["name", "path", "itemCount"]
  else if containsSub cnl "link".toList then ["url", "expiryDate", "permissions"]
  else if containsSub cnl "contact".toList then ["name", "phone", "email", "company"]
  else if containsSub cnl "opportunity".toList || containsSub cnl "lead".toList then
    ["stage", "value", "closeDate", "probability"]
  else if containsSub cnl "account".toList then
    (if hasCrm acc.found_classes then ["name", "industry", "location"]
     else ["username", "password", "email"])
  else if containsSub cnl "activity".toList then ["type", "date", "notes", "duration"]
  else if containsSub cnl "reminder".toList then ["date", "time", "note", "status"]
  else if containsSub cnl "campaign".toList then
    ["name", "budget", "startDate", "endDate", "type"]
  else if containsSub cnl "email".toList then
    ["subject", "body", "recipient", "sender", "date"]
  else ["id", "description"]

/-- The refined-operation list of the passive-class branch (lines 876–888). -/
def passiveOps (cnl : List Char) : List String :=
  if containsSub cnl "version".toList then ["download", "restore", "diff"]
  else if containsSub cnl "inspection".toList then ["complete", "cancel", "updateResult"]
  else if containsSub cnl "report".toList then
    ["publish", "archive", "export", "save", "delete"]
  else if containsSub cnl "file".toList then ["open", "edit", "share", "download"]
  else if containsSub cnl "folder".toList then ["addFile", "removeFile", "listContents"]
  else ["save", "delete"]

/-- Post-processing step 2 for one class (lines 810–891): inject default
attributes and methods when the class still has none. -/
def injectFor (acc : XState) (cn : String) : XState :=
  match lookupClass acc.found_classes cn with
  | none => acc
  | some cd =>
    if cd.attributes ≠ [] then acc
    else if cd.stereotype = some "actor" then
      let acc := add_attribute acc cn "id" 0 "-" "String"
      let acc := add_attribute acc cn "name" 0 "-" "String"
      let acc := add_attribute acc cn "email" 0 "-" "String"
      if cd.methods = [] then
        if containsSub (pyLower cn.toList) "inspector".toList then
          add_method
            (add_method acc cn "receiveWork" 0
              [⟨"assignment", "Inspection", some "in"⟩] "+" "void")
            cn "updateStatus" 0 [] "+" "void"
        else if containsSub (pyLower cn.toList) "researcher".toList then
          add_method acc cn "login" 0 [] "+" "void"
        else if cn = "User" then
          add_method (add_method acc cn "login" 0 [] "+" "void") cn "logout" 0 [] "+" "void"
        else acc
      else acc
    else
      let cnl := pyLower cn.toList
      let acc := (passiveDefaults acc cnl).foldl
        (fun a d => add_attribute a cn d 0 "-" "String") acc
      (passiveOps cnl).foldl (fun a op => add_method a cn op 0 [] "+" "void") acc

/-- Post-processing step 2 over all classes, in registry insertion order. -/
def injectDefaults (st : XState) : XState :=
  (st.found_classes.map Prod.fst).foldl injectFor st

/-- `ClassDiagramExtractor.extract`: reset `model_elements` and
`found_classes` — but, exactly as in the source, NOT `found_relationships` —
process each story under the per-story exception handler, then run the two
post-processing passes. -/
def classExtract (st : XState) (stories : List Story) : XState :=
  let st := { st with model_elements := [], found_classes := [] }
  let st := stories.foldl processStory st
  injectDefaults (userInheritance st)

/-- The `(from, to, kind)` keys of the `Relationship` elements of a model
element list. -/
def relKeys (els : List MElem) : List (String × String × String) :=
  els.filterMap (fun e =>
    match e with
    | .rel a b t _ _ _ => some (a, b, t)
    | _ => none)

/-- The registry invariant behind claim C4: the relationship keys appearing in
`model_elements` are pairwise distinct and all recorded in
`found_relationships`. -/
def RelInv (st : XState) : Prop :=
  (relKeys st.model_elements).Nodup ∧
    ∀ k ∈ relKeys st.model_elements, k ∈ st.found_relationships

/-- Claim C1's concrete batch: one story whose analysis finds the actor
"User", the class "Folder" and a container-style Aggregation edge
Folder → File (the spec's §8 example story). -/
def c1Story : Story :=
  ⟨1, [.actor "User", .klass "Folder" none,
       .relate "Folder" "File" "Aggregation" none none], false⟩

/-- Claim C6's concrete story: the per-story body registers the class "Alpha"
and then raises (for instance the `IndexError` reachable at line 557 of
`uml_extractors.py` when a direct object's lemma is empty). -/
def c6Story : Story := ⟨7, [.klass "Alpha" none], true⟩

/-- Claim C7's concrete batch: "Admin" is discovered as an actor and "user"
only as a direct object, so "User" enters the registry as a plain class with
no actor stereotype. -/
def c7Story : Story := ⟨3, [.actor "Admin", .klass "User" none], false⟩

/-- A state with one actor class "Admin" and one plain class "User", as
reached after `c7Story`-like processing; used to witness the inheritance
characterization. -/
def c7WState : XState :=
  ⟨[], [("User", ⟨[], [], none⟩), ("Admin", ⟨[], [], some "actor"⟩)], []⟩

/-- A mid-run state whose registries already hold the relationship key
`("A","B","Association")` and the class "User"; used to witness the
re-insertion no-ops of claim C4. -/
def c4State : XState :=
  ⟨[], [("User", ⟨[], [], some "actor"⟩)], [("A", "B", "Association")]⟩

/-! ### `UseCaseDiagramExtractor._clean_use_case_name` and the name regex

`re.sub(r'\s*\(.*?\)', '', text)` removes, left to right, each
non-greedy parenthesized group together with the whitespace run before it;
a `(` with no `)` before the end of the line is left in place.  The fuel of
`removeParensAux` (the text length) dominates the number of removals. -/

def findCloseIdx : List Char → Option Nat
  | [] => none
  | c :: rest =>
    if c == ')' then some 0
    else if c == '\n' then none
    else (findCloseIdx rest).map (· + 1)

def splitAtParenMatch : List Char → Option (List Char × List Char)
  | [] => none
  | c :: rest =>
    if c == '(' then
      match findCloseIdx rest with
      | some j => some ([], rest.drop (j + 1))
      | none => (splitAtParenMatch rest).map (fun pr => (c :: pr.1, pr.2))
    else (splitAtParenMatch rest).map (fun pr => (c :: pr.1, pr.2))

def removeParensAux : Nat → List Char → List Char
  | 0, l => l
  | fuel + 1, l =>
    match splitAtParenMatch l with
    | none => l
    | some (pre, post) => dropTrailingWs pre ++ removeParensAux fuel post

def removeParens (l : List Char) : List Char := removeParensAux (l.length + 1) l

def omin : Option Nat → Option Nat → Option Nat
  | none, b => b
  | some m, none => some m
  | some m, some i => if i < m then some i else some m

def stopsSource : List (List Char) :=
  [" so that ", " in order to ", " so ", " when ", " using ", " to get ", " because "].map
    String.toList

def stopsClaim : List (List Char) :=
  [" so that ", " in order to ", " so ", " when ", " using ", " because "].map String.toList

def minStopsL (stops : List (List Char)) (lt : List Char) : Option Nat :=
  stops.foldl (fun acc s => omin acc (findSub lt s)) none

def pyMinStops (stops : List (List Char)) (t : List Char) : Option Nat :=
  minStopsL stops (pyLower t)

def truncAtStops (stops : List (List Char)) (t : List Char) : List Char :=
  match pyMinStops stops t with
  | none => t
  | some i => t.take i

def clean_use_case_name (t : List Char) : List Char :=
  let t := removeParens t
  let t := truncAtStops stopsSource t
  let t := if t.contains '.' then takeUntilCh '.' t else t
  pyCapitalize (pyStripChars " ,;:".toList t)

def wantToRest : List Char → Option (List Char)
  | [] => none
  | t@(_ :: rest) =>
    if startsWithL (pyLower t) "want to".toList then
      match t.drop 7 with
      | [] => wantToRest rest
      | c :: cs =>
        if isSpaceCh c then some (takeUntilCh '\n' ((c :: cs).dropWhile isSpaceCh))
        else wantToRest rest
    else wantToRest rest

def useCaseNameViaRegex (text : List Char) : Option (List Char) :=
  (wantToRest text).map clean_use_case_name

def earliestStopIdx (stops : List (List Char)) : List Char → Option Nat
  | [] => if stops.any (fun s => startsWithL [] s) then some 0 else none
  | c :: rest =>
    if stops.any (fun s => startsWithL (c :: rest) s) then some 0
    else (earliestStopIdx stops rest).map (· + 1)

def claimTrunc (stops : List (List Char)) (t : List Char) : List Char :=
  match earliestStopIdx stops (pyLower t) with
  | none => t
  | some i => t.take i

def clean_use_case_name_claimed (t : List Char) : List Char :=
  let t := removeParens t
  let t := claimTrunc stopsClaim t
  let t := if t.contains '.' then takeUntilCh '.' t else t
  pyTitle (pyStripChars " ,;:".toList t)

def clean_use_case_name_amended (t : List Char) : List Char :=
  let t := removeParens t
  let t := claimTrunc stopsSource t
  let t := if t.contains '.' then takeUntilCh '.' t else t
  pyCapitalize (pyStripChars " ,;:".toList t)


/-! ### Python values and the groq-JSON dispatch (claims C10)

`_extract_use_cases`, `_extract_sequences` and `_extract_activities` first
run `json.loads` on the story text (keeping `{}` on a decode error) and then
branch on `'groq_output' in data and '<field>' in data['groq_output']`.
`json.loads` is the Python standard library, outside this repository, so the
embedding starts from the parsed value: `PVal` covers every JSON result, and
the Python operations used by the dispatch (`in`, subscripting, `.get`,
iteration, `[0]`) are modelled with their standard semantics, raising
(`Except.error`) exactly where Python raises `TypeError`/`KeyError`/
`AttributeError`/`IndexError`; the extractors' per-story handlers turn an
uncaught raise into "no elements". -/

/-- A Python value as produced by `json.loads`. -/
inductive PVal : Type where
  | pstr (s : String)
  | pint (n : Int)
  | pbool (b : Bool)
  | pnull
  | plist (items : List PVal)
  | pdict (entries : List (String × PVal))

/-- Python `key in v`: key lookup on dicts, substring test on strings,
membership on lists; `TypeError` on numbers, booleans and `None`. -/
def pyIn (key : String) : PVal → Except Unit Bool
  | .pdict l => .ok (l.any (fun p => p.1 == key))
  | .pstr s => .ok (containsSub s.toList key.toList)
  | .plist l => .ok (l.any (fun v => match v with | .pstr s => s == key | _ => false))
  | .pint _ => .error ()
  | .pbool _ => .error ()
  | .pnull => .error ()

/-- Python `v[key]` for a string key: dict lookup (`KeyError` when absent),
`TypeError` on anything else. -/
def pySubscript : PVal → String → Except Unit PVal
  | .pdict l, key =>
    match (l.find? (fun p => p.1 == key)).map Prod.snd with
    | some v => .ok v
    | none => .error ()
  | _, _ => .error ()

/-- Python `v.get(key, dflt)`: only dicts have `.get` (`AttributeError`
otherwise). -/
def pyGet (v : PVal) (key : String) (dflt : PVal) : Except Unit PVal :=
  match v with
  | .pdict l => .ok (((l.find? (fun p => p.1 == key)).map Prod.snd).getD dflt)
  | _ => .error ()

/-- Python `for x in v`: lists yield their items, strings their characters,
dicts their keys; `TypeError` otherwise. -/
def pyIter : PVal → Except Unit (List PVal)
  | .plist l => .ok l
  | .pstr s => .ok (s.toList.map (fun c => .pstr (String.mk [c])))
  | .pdict l => .ok (l.map (fun p => .pstr p.1))
  | _ => .error ()

/-- Python `v[0]`: head of a list or first character of a string
(`IndexError` when empty, `TypeError`/`KeyError` otherwise). -/
def pyIndex0 : PVal → Except Unit PVal
  | .plist (x :: _) => .ok x
  | .plist [] => .error ()
  | .pstr s =>
    (match s.toList with
     | c :: _ => .ok (.pstr (String.mk [c]))
     | [] => .error ())
  | _ => .error ()

/-- One `SequenceMessage` model element. -/
structure SeqMsg where
  sender : PVal
  receiver : PVal
  message : PVal
  source_id : Nat

/-- One `ActivityStep` model element. -/
structure ActStep where
  lane : PVal
  step : PVal
  source_id : Nat

/-- The suffix after the first case-insensitive occurrence of `pat`. -/
def afterFirstSubCI (pat : List Char) : List Char → Option (List Char)
  | [] => none
  | t@(_ :: rest) =>
    if startsWithL (pyLower t) pat then some (t.drop pat.length)
    else afterFirstSubCI pat rest

/-- The segment before the next case-insensitive occurrence of `pat`. -/
def takeUntilSubCI (pat : List Char) : List Char → List Char
  | [] => []
  | t@(c :: rest) =>
    if startsWithL (pyLower t) pat then [] else c :: takeUntilSubCI pat rest

/-- The fallback message of `_extract_sequences`:
`re.split(r"want to", text, flags=I)[1].split('.')[0].split(',')[0].strip()`
when "want to" occurs, else "process request". -/
def seqFallbackMessage (text : List Char) : List Char :=
  if containsSub (pyLower text) "want to".toList then
    match afterFirstSubCI "want to".toList text with
    | some after =>
      pyStrip (takeUntilCh ',' (takeUntilCh '.' (takeUntilSubCI "want to".toList after)))
    | none => "process request".toList
  else "process request".toList

/-- The NLP/regex fallback branch of `_extract_sequences`: sender and
receiver are the first two tagger participants, with defaults "User" and
"System". -/
def seqFallback (participants : List String) (text : List Char) (sid : Nat) : List SeqMsg :=
  let sender := match participants with | [] => "User" | p0 :: _ => p0
  let receiver := match participants with | _ :: p1 :: _ => p1 | _ => "System"
  [⟨.pstr sender, .pstr receiver, .pstr (String.mk (seqFallbackMessage text)), sid⟩]

/-- `SequenceDiagramExtractor._extract_sequences` after `json.loads`:
`participants` are the ACTOR/CLASS entities the external tagger finds in the
text (used only on the fallback path). -/
def extract_sequences (data : PVal) (participants : List String) (text : List Char)
    (story_id : Nat) : List SeqMsg :=
  match pyIn "groq_output" data with
  | .error _ => []
  | .ok false => seqFallback participants text story_id
  | .ok true =>
    match pySubscript data "groq_output" with
    | .error _ => []
    | .ok g =>
      match pyIn "interaction" g with
      | .error _ => []
      | .ok false => seqFallback participants text story_id
      | .ok true =>
        match pyGet g "actor" (.pstr "User"), pyGet g "class" (.pstr "System") with
        | .ok actor, .ok cls =>
          (match pySubscript g "interaction" with
           | .ok inter =>
             (match pyIter inter with
              | .ok items => items.map (fun it => ⟨actor, cls, it, story_id⟩)
              | .error _ => [])
           | .error _ => [])
        | _, _ => []

/-- The lazy capture `(.*?)(?:,|$|\.)` of the activity-step regex: the group
runs to the first `,`, `.` or the end of the input; a newline in between
makes the whole attempt fail.  Returns the group and the text after the
match. -/
def stepCapture : List Char → Option (List Char × List Char)
  | [] => some ([], [])
  | c :: rest =>
    if c == ',' then some ([], rest)
    else if c == '.' then some ([], rest)
    else if c == '\n' then none
    else (stepCapture rest).map (fun pr => (c :: pr.1, pr.2))

/-- `re.findall(r"want to\s+(.*?)(?:,|$|\.)", text, I)`: scan left to right,
at each "want to" followed by whitespace capture one step and resume after
the match.  The fuel (the text length) dominates the number of steps. -/
def wantToStepsAux : Nat → List Char → List (List Char)
  | 0, _ => []
  | _ + 1, [] => []
  | fuel + 1, t@(_ :: rest) =>
    if startsWithL (pyLower t) "want to".toList then
      match t.drop 7 with
      | [] => wantToStepsAux fuel rest
      | c :: cs =>
        if isSpaceCh c then
          match stepCapture ((c :: cs).dropWhile isSpaceCh) with
          | some (grp, restAfter) => grp :: wantToStepsAux fuel restAfter
          | none => wantToStepsAux fuel rest
        else wantToStepsAux fuel rest
    else wantToStepsAux fuel rest

/-- All activity steps found in the text. -/
def wantToSteps (text : List Char) : List (List Char) :=
  wantToStepsAux (text.length + 1) text

/-- The NLP/regex fallback branch of `_extract_activities`: the lane is the
first tagger ACTOR entity, defaulting to "User". -/
def actFallback (actorEnts : List String) (text : List Char) (sid : Nat) : List ActStep :=
  let lane := match (if actorEnts.isEmpty then ["User"] else actorEnts) with
              | [] => "User"
              | l0 :: _ => l0
  (wantToSteps text).map
    (fun stp => ⟨.pstr lane, .pstr (String.mk (pyCapitalize (pyStrip stp))), sid⟩)

/-- `ActivityDiagramExtractor._extract_activities` after `json.loads`. -/
def extract_activities (data : PVal) (actorEnts : List String) (text : List Char)
    (story_id : Nat) : List ActStep :=
  match pyIn "groq_output" data with
  | .error _ => []
  | .ok false => actFallback actorEnts text story_id
  | .ok true =>
    match pySubscript data "groq_output" with
    | .error _ => []
    | .ok g =>
      match pyIn "flow_steps" g with
      | .error _ => []
      | .ok false => actFallback actorEnts text story_id
      | .ok true =>
        match pyGet g "actor" (.plist [.pstr "Customer"]) with
        | .error _ => []
        | .ok lanes =>
          (match pySubscript g "flow_steps" with
           | .ok fs =>
             (match pyIter fs with
              | .ok items =>
                (match pyIndex0 lanes with
                 | .ok lane0 => items.map (fun it => ⟨lane0, it, story_id⟩)
                 | .error _ => [])
              | .error _ => [])
           | .error _ => [])

/-- The use-case-name selection of `_extract_use_cases` after `json.loads`:
the cleaned groq `use_case` when present (with the regex backup when it
cleans to the falsy empty string), else the regex backup; `Except.error`
where the membership test or the cleaning raises. -/
def useCaseNameOf (data : PVal) (text : List Char) : Except Unit (Option (List Char)) :=
  match pyIn "groq_output" data with
  | .error _ => .error ()
  | .ok false => .ok ((wantToRest text).map clean_use_case_name)
  | .ok true =>
    match pySubscript data "groq_output" with
    | .error _ => .error ()
    | .ok g =>
      match pyIn "use_case" g with
      | .error _ => .error ()
      | .ok false => .ok ((wantToRest text).map clean_use_case_name)
      | .ok true =>
        match pySubscript g "use_case" with
        | .error _ => .error ()
        | .ok (.pstr raw) =>
          let nm := clean_use_case_name raw.toList
          if nm = [] then .ok ((wantToRest text).map clean_use_case_name)
          else .ok (some nm)
        | .ok _ => .error ()

/-- A concrete groq payload used to witness the JSON dispatch. -/
def c10G : List (String × PVal) :=
  [("use_case", .pstr "log an activity"), ("actor", .pstr "Customer"),
   ("interaction", .plist [.pstr "login"]), ("flow_steps", .plist [.pstr "login"])]

/-- A concrete parsed story value `{"groq_output": {...}}`. -/
def c10Entries : List (String × PVal) := [("groq_output", .pdict c10G)]

/-! ### ComponentDiagramExtractor: pattern-based relationship mining (claim C2)

The per-match body of `_extract_relationships` (lines 1711–1828) is embedded
over the extractor's component/relationship registries.  The technology
mapping file `technology_mappings.json` is not under `src/`, so
`_infer_stereotype`'s table is a parameter (it is only consulted on the
synthesize-new-component fallback paths). -/

/-- The per-component registry value of `ComponentDiagramExtractor`. -/
structure CompData where
  stereotype : Option String
  interfaces : List String
  dependencies : List String
deriving DecidableEq

/-- One entry of `self.relationships`. -/
structure CRel where
  source : String
  target : String
  type : String
deriving DecidableEq

/-- The registries touched by relationship mining. -/
structure CompState where
  components : List (String × CompData)
  external_systems : List String
  relationships : List CRel
deriving DecidableEq

/-- Python truthiness of an optional string (None and "" are falsy). -/
def pyTruthy : Option String → Bool
  | none => false
  | some s => !(s == "")

/-- Does the word `w` match at the head of `t` with `\b` on both sides?
`prev` is the character before `t` in the scanned string. -/
def matchWordAt (prev : Option Char) (t w : List Char) : Bool :=
  (match prev with | none => true | some pc => !isWordCh pc) &&
    startsWithL t w &&
    (match t.drop w.length with | [] => true | c :: _ => !isWordCh c)

/-- `re.sub(r'\b(w1|w2|...)\b', '', t)` for literal word alternatives: drop
every whole-word occurrence, scanning left to right (the fuel — the text
length — dominates the number of steps). -/
def removeWordsAux (words : List (List Char)) : Nat → Option Char → List Char → List Char
  | 0, _, t => t
  | _ + 1, _, [] => []
  | fuel + 1, prev, t@(c :: rest) =>
    match words.find? (fun w => matchWordAt prev t w) with
    | some w => removeWordsAux words fuel (some (w.getLastD 'a')) (t.drop w.length)
    | none => c :: removeWordsAux words fuel (some c) rest

/-- Whole-word removal of the articles/demonstratives used by
`_find_best_component_match`. -/
def removeCommonWords (t : List Char) : List Char :=
  removeWordsAux (["the", "a", "an", "this", "that"].map String.toList) (t.length + 1) none t

/-- `ComponentDiagramExtractor._find_best_component_match`. -/
def find_best_component_match (cfg : NormalizationConfig) (st : CompState)
    (text : List Char) : Option String :=
  let tl := pyStrip (pyLower text)
  let tl := pyStrip (removeCommonWords tl)
  match st.components.find? (fun p =>
      (pyLower p.1.toList == tl) || containsSub tl (pyLower p.1.toList)) with
  | some p => some p.1
  | none =>
    match st.external_systems.find? (fun e =>
        (pyLower e.toList == tl) || containsSub tl (pyLower e.toList)) with
    | some e => some e
    | none =>
      let normalized := String.mk (normalize_component_name cfg text)
      if st.components.any (fun p => p.1 == normalized) then some normalized
      else if st.external_systems.contains normalized then some normalized
      else none

/-- `ComponentDiagramExtractor._infer_stereotype`, over the (missing)
technology-mapping table passed as a parameter. -/
def infer_stereotype (techMap : List (String × String)) (text : List Char) : Option String :=
  (techMap.find? (fun pr => containsSub (pyLower text) pr.1.toList)).map Prod.snd

/-- The noise-term list of `_add_component`. -/
def comp_noise_terms : List String :=
  ["system", "the system", "application", "the application",
   "for client", "client communication", "for communication",
   "using", "with", "from", "to", "and", "or", "the",
   "client", "customer", "user", "frontend"]

/-- Alternation of a non-empty list of regexes, in order. -/
def raltList : List RE → RE
  | [] => .eps
  | [r] => r
  | r :: rest => .alt r (raltList rest)

/-- The preposition alternatives of the malformed-name filters. -/
def prepAlts : RE :=
  raltList (["for", "with", "from", "to", "in", "on", "at", "by", "using", "via",
    "through"].map rstr)

/-- `r'^(for|with|from|to|in|on|at|by|using|via|through)\s'`. -/
def malformedPat1 : RE := .cat prepAlts (.cls isSpaceCh)

/-- `r'\s(for|with|from|to|in|on|at|by|using|via|through)$'`. -/
def malformedPat2 : RE := .cat (.cls isSpaceCh) (.cat prepAlts .eol)

/-- `r'^(exposes|provides|offers)\s'`. -/
def malformedPat3 : RE :=
  .cat (raltList [rstr "exposes", rstr "provides", rstr "offers"]) (.cls isSpaceCh)

/-- `r'^\w{1,2}\s'`. -/
def malformedPat4 : RE :=
  rcat [.cls isWordCh, .opt (.cls isWordCh), .cls isSpaceCh]

/-- The infrastructure-term list of `_add_component`. -/
def infrastructure_terms : List String :=
  ["server", "container", "virtual machine", "vm", "host", "cluster"]

/-- Replace in place when the key exists, else append (Python dict
assignment). -/
def dictSet (l : List (String × CompData)) (key : String) (v : CompData) :
    List (String × CompData) :=
  if l.any (fun p => p.1 == key) then
    l.map (fun p => if p.1 == key then (key, v) else p)
  else l ++ [(key, v)]

/-- `ComponentDiagramExtractor._add_component`: normalize, filter noise,
malformed and infrastructure names, merge near-duplicates (first entry whose
name contains or is contained in the new one wins), else insert. -/
def add_component (cfg : NormalizationConfig) (st : CompState) (name : List Char)
    (stereotype : Option String) : CompState :=
  if name = [] then st
  else
    let nm := String.mk (normalize_component_name cfg name)
    if comp_noise_terms.contains (String.mk (pyLower nm.toList)) || nm.length < 3 then st
    else if [malformedPat1, malformedPat2, malformedPat3, malformedPat4].any
        (fun pat => reMatchStart pat (pyLower nm.toList)) then st
    else if infrastructure_terms.any
        (fun term => containsSub (pyLower nm.toList) term.toList) then st
    else
      match st.components.find? (fun p =>
          containsSub (pyLower p.1.toList) (pyLower nm.toList) ||
            containsSub (pyLower nm.toList) (pyLower p.1.toList)) with
      | some p =>
        if containsSub (pyLower p.1.toList) (pyLower nm.toList) then
          -- existing name is at least as descriptive: keep it
          if pyTruthy stereotype && !(pyTruthy p.2.stereotype) then
            { st with components := st.components.map (fun q =>
                if q.1 == p.1 then (q.1, { q.2 with stereotype := stereotype }) else q) }
          else st
        else
          -- the new name is more descriptive: replace the existing entry
          let old := p.2
          let merged : CompData :=
            ⟨(if pyTruthy stereotype then stereotype else old.stereotype),
             old.interfaces, old.dependencies⟩
          { st with components :=
              dictSet (st.components.filter (fun q => !(q.1 == p.1))) nm merged }
      | none =>
        if st.components.any (fun p => p.1 == nm) then st
        else { st with components := st.components ++ [(nm, ⟨stereotype, [], []⟩)] }

/-- The protocol vocabulary of the `via` handling. -/
def protocolWords : List String :=
  ["http", "https", "grpc", "jdbc", "amqp", "tcp", "udp", "rest", "graphql",
   "soap", "websocket"]

/-- The `_is_db` helper of the database-to-database guard. -/
def is_db (stype : Option String) (name : String) : Bool :=
  (match stype with
   | some s => !(s == "") && containsSub s.toList "database".toList
   | none => false) ||
  (!(name == "") &&
    (containsSub (pyLower name.toList) "postgres".toList ||
     containsSub (pyLower name.toList) "mysql".toList ||
     containsSub (pyLower name.toList) "redis".toList ||
     containsSub (pyLower name.toList) "mongodb".toList ||
     containsSub (pyLower name.toList) "database".toList))

/-- The final relationship append (lines 1818–1828): deduplicated on
(source, target) only. -/
def finalRelAdd (st : CompState) (sc tc : String) (rel_type : String) : CompState :=
  if sc ≠ tc then
    if st.relationships.any (fun r => r.source == sc && r.target == tc) then st
    else { st with relationships := st.relationships ++ [⟨sc, tc, rel_type⟩] }
  else st

/-- The per-match body of `ComponentDiagramExtractor._extract_relationships`
(lines 1711–1828) for one regex match with groups `source_g`, `target_g` and
optional `via_g` under pattern kind `rel_type`. -/
def processMatch (cfg : NormalizationConfig) (techMap : List (String × String))
    (st : CompState) (sentence source_g target_g : List Char)
    (via_g : Option (List Char)) (rel_type : String) : CompState :=
  let source_text := pyStrip source_g
  let target_text := pyStrip target_g
  let via_text := via_g.map pyStrip
  let source_comp := find_best_component_match cfg st source_text
  let target_comp := find_best_component_match cfg st target_text
  let protocol : Option String :=
    match via_text with
    | none => none
    | some v =>
      if protocolWords.any (fun p => containsSub (pyLower v) p.toList) then
        (protocolWords.find? (fun p => containsSub (pyLower v) p.toList)).map
          (fun p => "<<" ++ String.mk (pyUpper p.toList) ++ ">>")
      else none
  let sentence_lower := pyLower sentence
  let resolved :=
    if source_comp.isNone || target_comp.isNone then
      st.components.foldl (fun (pr : Option String × Option String) p =>
        if containsSub sentence_lower (pyLower p.1.toList) then
          ((if pr.1.isNone && containsSub (pyLower source_text) (pyLower p.1.toList) then
              some p.1 else pr.1),
           (if pr.2.isNone && containsSub (pyLower target_text) (pyLower p.1.toList) then
              some p.1 else pr.2))
        else pr) (source_comp, target_comp)
    else (source_comp, target_comp)
  let source_comp := resolved.1
  let target_comp := resolved.2
  let viaish := rel_type = "via" ∨ rel_type = "communicates with" ∨ rel_type = "uses"
  let stTarget :=
    if target_comp.isNone ∧ viaish ∧ target_text ≠ [] then
      match target_text with
      | [] => (st, target_comp)
      | c :: _ =>
        if isUpperAlpha c && target_text.length > 3 then
          let norm_target := String.mk (normalize_component_name cfg target_text)
          if st.components.any (fun p => p.1 == norm_target) then (st, target_comp)
          else
            (add_component cfg st (normalize_component_name cfg target_text)
              (infer_stereotype techMap target_text), some norm_target)
        else (st, target_comp)
    else (st, target_comp)
  let st := stTarget.1
  let target_comp := stTarget.2
  let stSource :=
    if source_comp.isNone ∧ viaish ∧ source_text ≠ [] then
      match source_text with
      | [] => (st, source_comp)
      | c :: _ =>
        if isUpperAlpha c && source_text.length > 3 then
          let norm_source := String.mk (normalize_component_name cfg source_text)
          if ["the", "this", "system"].contains (String.mk (pyLower norm_source.toList)) then
            (st, source_comp)
          else if st.components.any (fun p => p.1 == norm_source) then (st, source_comp)
          else
            (add_component cfg st (normalize_component_name cfg source_text)
              (infer_stereotype techMap source_text), some norm_source)
        else (st, source_comp)
    else (st, source_comp)
  let st := stSource.1
  let source_comp := stSource.2
  -- first append, deduplicated on (source, target, description)
  let st :=
    match source_comp, target_comp with
    | some sc, some tc =>
      if sc ≠ tc then
        let description := if rel_type = "via" then "interacts" else rel_type
        let description :=
          match protocol with
          | some pr => description ++ " " ++ pr
          | none => description
        if st.relationships.any (fun r =>
            r.source == sc && r.target == tc && r.type == description) then st
        else { st with relationships := st.relationships ++ [⟨sc, tc, description⟩] }
      else st
    | _, _ => st
  let source_st :=
    match source_comp with
    | some sc => (((st.components.find? (fun p => p.1 == sc)).map Prod.snd).map
        CompData.stereotype).getD none
    | none => none
  let target_st :=
    match target_comp with
    | some tc => (((st.components.find? (fun p => p.1 == tc)).map Prod.snd).map
        CompData.stereotype).getD none
    | none => none
  -- database-to-database guard, then the final append
  match source_comp, target_comp with
  | some sc, some tc =>
    if is_db source_st sc && is_db target_st tc then
      match st.components.find? (fun p =>
          containsSub sentence_lower (pyLower p.1.toList) &&
            !(p.1 == sc) && !(p.1 == tc) &&
            (containsSub (pyLower p.1.toList) "service".toList ||
             (pyTruthy p.2.stereotype &&
               containsSub (pyLower ((p.2.stereotype.getD "None").toList)) "backend".toList) ||
             containsSub (pyLower p.1.toList) "api".toList)) with
      | some svc => finalRelAdd st svc.1 tc rel_type
      | none => st
    else finalRelAdd st sc tc rel_type
  | _, _ => st

/-- The concrete registries of claim C2: the two database components are
known (as NER would register them from the narration), no service exists. -/
def c2State : CompState :=
  ⟨[("PostgreSQL", ⟨some "database", [], []⟩), ("MySQL", ⟨some "database", [], []⟩)],
   [], []⟩

/-! ### The entity overlay of `_process_text` (claim C8)

The tagger and parser are external spaCy models, so the overlay is embedded
over their observable interface: a parse is a list of token character spans
plus current entities; `Doc.char_span` with its default strict alignment
returns a span only when both offsets sit exactly on token boundaries, and
assigning `doc.ents` raises when the assigned spans overlap — the `except`
of the source then leaves the parse's entities unchanged. -/

/-- One entity span `(start_char, end_char, label)`. -/
structure Span where
  s : Nat
  e : Nat
  label : String
deriving DecidableEq

/-- A parsed document: token boundaries and current entities. -/
structure PDoc where
  tokens : List (Nat × Nat)
  ents : List Span
deriving DecidableEq

/-- Modelled from spaCy `Doc.char_span(start, end, label)` (strict alignment
mode): some span exactly when the start is a token start, the end a token
end, and the span non-empty. -/
def charSpan (d : PDoc) (sp : Span) : Option Span :=
  if (d.tokens.any (fun t => t.1 == sp.s)) && (d.tokens.any (fun t => t.2 == sp.e))
      && decide (sp.s < sp.e) then
    some sp
  else none

/-- Character-interval overlap of two spans. -/
def overlapB (a b : Span) : Bool := decide (a.s < b.e) && decide (b.s < a.e)

/-- Pairwise non-overlap (the condition under which the `doc.ents`
assignment succeeds). -/
def noOverlap : List Span → Bool
  | [] => true
  | x :: xs => xs.all (fun y => !(overlapB x y)) && noOverlap xs

/-- `BaseDiagramExtractor._process_text` overlay (lines 66–78): align each
tagger span individually, and — only when some spans survived — attempt the
`doc.ents` assignment, whose failure on overlapping spans is swallowed by
the bare `except`. -/
def overlayBase (d : PDoc) (tagger : List Span) : PDoc :=
  let newEnts := tagger.filterMap (charSpan d)
  if newEnts ≠ [] then
    (if noOverlap newEnts then { d with ents := newEnts } else d)
  else d

/-- `ComponentDiagramExtractor._process_text` overlay (lines 1284–1306): the
assignment is attempted even for an empty surviving list, and the `try`
covering the whole block leaves the parse's entities unchanged on a raise. -/
def overlayComponent (d : PDoc) (tagger : List Span) : PDoc :=
  let newEnts := tagger.filterMap (charSpan d)
  if noOverlap newEnts then { d with ents := newEnts } else d

/-- The one-token document of claim C8's counterexample. -/
def c8Doc : PDoc := ⟨[(0, 3)], []⟩

/-! ## Theorems -/

/-! ### Lemmas connecting the source loops with the spec-side selectors -/

theorem canonicalLoop_eq_find (tbl : List (RE × String)) (nl : List Char) :
    canonicalLoop tbl nl = (tbl.find? (fun pr => reSearch pr.1 nl)).map Prod.snd := by
  induction tbl with
  | nil => rfl
  | cons hd tl ih =>
    obtain ⟨p, c⟩ := hd
    by_cases h : reSearch p nl
    · simp [canonicalLoop, List.find?, h]
    · simp only [canonicalLoop, h, if_neg, ite_false, Bool.false_eq_true]
      rw [List.find?_cons_of_neg _ (by simpa using h), ih]

theorem canonicalLoop_mem {tbl : List (RE × String)} {nl : List Char} {c : String}
    (h : canonicalLoop tbl nl = some c) : c ∈ tbl.map Prod.snd := by
  induction tbl with
  | nil => simp [canonicalLoop] at h
  | cons hd tl ih =>
    obtain ⟨p, cc⟩ := hd
    by_cases hr : reSearch p nl
    · simp [canonicalLoop, hr] at h
      simp [h]
    · simp only [canonicalLoop, hr, ite_false, Bool.false_eq_true] at h
      simp [ih h]

theorem head_insertDesc (x : ScoredMatch) (s : List ScoredMatch) :
    (insertDesc x s).head? =
      some (match s with
            | [] => x
            | y :: _ => if x.1 ≤ y.1 then y else x) := by
  cases s with
  | nil => rfl
  | cons y ys =>
    by_cases h : x.1 ≤ y.1
    · simp [insertDesc, h]
    · simp [insertDesc, h]

theorem head_foldl_insertDesc (l : List ScoredMatch) :
    ∀ acc : List ScoredMatch,
      (l.foldl (fun a x => insertDesc x a) acc).head? = l.foldl bestStep acc.head? := by
  induction l with
  | nil => intro acc; rfl
  | cons x xs ih =>
    intro acc
    have hstep : (insertDesc x acc).head? = bestStep acc.head? x := by
      rw [head_insertDesc]
      cases acc with
      | nil => rfl
      | cons y ys => rfl
    simp only [List.foldl_cons, ih, hstep]

theorem stableSortDesc_head (l : List ScoredMatch) :
    (stableSortDesc l).head? = specLongestOf l := by
  simpa [stableSortDesc, specLongestOf] using head_foldl_insertDesc l []

theorem config_apply_patterns_eq (cfg : NormalizationConfig) (text : List Char)
    (category : String) :
    config_apply_patterns cfg text category = specLongestConfig cfg text category := by
  unfold config_apply_patterns specLongestConfig
  by_cases hp : cfg.apply_patterns_policy
  · simp only [hp, Bool.not_true, Bool.false_eq_true, if_false, ite_false]
    by_cases he : (cfg.patternsFor category).isEmpty
    · simp [he]
    · simp only [he, ite_false, Bool.false_eq_true]
      have : ∀ l : List ScoredMatch,
          (match l with
           | [] => (none : Option String)
           | m :: _ => some m.2) = l.head?.map Prod.snd := by
        intro l; cases l <;> rfl
      rw [this, stableSortDesc_head]
  · simp [hp]

/-- C3, amended part: for every table, category, configuration and input, the
source's per-category canonicalization equals the three-tier procedure of the
claim — hardcoded table with first-matching-pattern-wins, then config rule
set with longest-matched-span-wins (earliest at ties), then `_clean_text` —
hence in particular the hardcoded tier ignores whether a later pattern would
match a longer span. -/
theorem c3_canonicalization_tiers (table : List (RE × String)) (category : String)
    (cfg : NormalizationConfig) (name : List Char) :
    normalizeWith table category cfg name = claimCanonicalizeAmended table category cfg name := by
  unfold normalizeWith claimCanonicalizeAmended
  rw [show apply_canonical_map table name = specFirstMatch table name from by
        unfold apply_canonical_map specFirstMatch; rw [canonicalLoop_eq_find],
      config_apply_patterns_eq]

/-- C3, counterexample: on "Frontend And" — which neither tier matches — the
source's generic cleaning also removes the trailing "and" connector, so the
canonicalization procedure exactly as the claim words it disagrees with the
code. -/
theorem c3_counterexample :
    normalize_component_name defaultConfig "Frontend And".toList ≠
      claimCanonicalize CANONICAL_COMPONENTS "components" defaultConfig "Frontend And".toList := by
  decide

/-! ### Claim C5: idempotence of the per-category canonicalization -/

/-- C5, counterexample: canonicalization is not idempotent.  `_clean_text`
strips only one leading article and one leading preposition per pass, so
"On The Server" cleans to "The Server", which cleans again to "Server". -/
theorem c5_counterexample :
    normalize_component_name defaultConfig
        (normalize_component_name defaultConfig "On The Server".toList) ≠
      normalize_component_name defaultConfig "On The Server".toList := by
  decide

theorem normalizeWith_tier1 (table : List (RE × String)) (category : String)
    (cfg : NormalizationConfig) (name : List Char) (c : String)
    (h : apply_canonical_map table name = some c) (hne : ¬ name = []) :
    normalizeWith table category cfg name = c.toList := by
  unfold normalizeWith
  simp [hne, h]

theorem fixedPoints_components :
    ∀ c ∈ CANONICAL_COMPONENTS.map Prod.snd,
      normalize_component_name defaultConfig c.toList = c.toList := by decide

theorem fixedPoints_nodes :
    ∀ c ∈ CANONICAL_NODES.map Prod.snd,
      normalize_node_name defaultConfig c.toList = c.toList := by decide

theorem fixedPoints_devices :
    ∀ c ∈ CANONICAL_DEVICES.map Prod.snd,
      normalize_device_name defaultConfig c.toList = c.toList := by decide

theorem fixedPoints_environments :
    ∀ c ∈ CANONICAL_ENVIRONMENTS.map Prod.snd,
      normalize_environment_name defaultConfig c.toList = c.toList := by decide

theorem fixedPoints_interfaces :
    ∀ c ∈ CANONICAL_INTERFACES.map Prod.snd,
      normalize_interface defaultConfig c.toList = c.toList := by decide

theorem fixedPoints_externals :
    ∀ c ∈ CANONICAL_EXTERNAL_SYSTEMS.map Prod.snd,
      normalize_external_system defaultConfig c.toList = c.toList := by decide

theorem tier1_idempotent_aux (table : List (RE × String)) (category : String)
    (name : List Char)
    (hfix : ∀ c ∈ table.map Prod.snd,
      normalizeWith table category defaultConfig c.toList = c.toList)
    (h : (apply_canonical_map table name).isSome) :
    normalizeWith table category defaultConfig
        (normalizeWith table category defaultConfig name) =
      normalizeWith table category defaultConfig name := by
  by_cases hne : name = []
  · subst hne
    simp [normalizeWith]
  · obtain ⟨c, hc⟩ := Option.isSome_iff_exists.mp h
    rw [normalizeWith_tier1 table category defaultConfig name c hc hne]
    exact hfix c (canonicalLoop_mem hc)

/-- C5, amended: with the configuration rule set absent (modelled as
`defaultConfig`), each of the six per-category canonicalization functions is
idempotent on every input that its hardcoded table matches; on inputs that
fall through to generic cleaning, a second application can strip a further
leading article or preposition, so unrestricted idempotence fails. -/
theorem c5_tier1_idempotent (name : List Char) :
    ((apply_canonical_map CANONICAL_COMPONENTS name).isSome →
      normalize_component_name defaultConfig (normalize_component_name defaultConfig name) =
        normalize_component_name defaultConfig name)
    ∧ ((apply_canonical_map CANONICAL_NODES name).isSome →
      normalize_node_name defaultConfig (normalize_node_name defaultConfig name) =
        normalize_node_name defaultConfig name)
    ∧ ((apply_canonical_map CANONICAL_DEVICES name).isSome →
      normalize_device_name defaultConfig (normalize_device_name defaultConfig name) =
        normalize_device_name defaultConfig name)
    ∧ ((apply_canonical_map CANONICAL_ENVIRONMENTS name).isSome →
      normalize_environment_name defaultConfig (normalize_environment_name defaultConfig name) =
        normalize_environment_name defaultConfig name)
    ∧ ((apply_canonical_map CANONICAL_INTERFACES name).isSome →
      normalize_interface defaultConfig (normalize_interface defaultConfig name) =
        normalize_interface defaultConfig name)
    ∧ ((apply_canonical_map CANONICAL_EXTERNAL_SYSTEMS name).isSome →
      normalize_external_system defaultConfig (normalize_external_system defaultConfig name) =
        normalize_external_system defaultConfig name) :=
  ⟨tier1_idempotent_aux _ _ name fixedPoints_components,
   tier1_idempotent_aux _ _ name fixedPoints_nodes,
   tier1_idempotent_aux _ _ name fixedPoints_devices,
   tier1_idempotent_aux _ _ name fixedPoints_environments,
   tier1_idempotent_aux _ _ name fixedPoints_interfaces,
   tier1_idempotent_aux _ _ name fixedPoints_externals⟩

/-- Witness for `c5_tier1_idempotent`: each conjunct applied at a concrete
input matched by the corresponding hardcoded table. -/
theorem c5_tier1_idempotent_witness :
    (normalize_component_name defaultConfig
        (normalize_component_name defaultConfig "A PostgreSQL Database".toList) =
      normalize_component_name defaultConfig "A PostgreSQL Database".toList)
    ∧ (normalize_node_name defaultConfig
        (normalize_node_name defaultConfig "In Docker Containers".toList) =
      normalize_node_name defaultConfig "In Docker Containers".toList)
    ∧ (normalize_device_name defaultConfig
        (normalize_device_name defaultConfig "desktop browser".toList) =
      normalize_device_name defaultConfig "desktop browser".toList)
    ∧ (normalize_environment_name defaultConfig
        (normalize_environment_name defaultConfig "k8s".toList) =
      normalize_environment_name defaultConfig "k8s".toList)
    ∧ (normalize_interface defaultConfig
        (normalize_interface defaultConfig "REST endpoint".toList) =
      normalize_interface defaultConfig "REST endpoint".toList)
    ∧ (normalize_external_system defaultConfig
        (normalize_external_system defaultConfig "External Stripe".toList) =
      normalize_external_system defaultConfig "External Stripe".toList) :=
  ⟨(c5_tier1_idempotent "A PostgreSQL Database".toList).1 (by decide),
   (c5_tier1_idempotent "In Docker Containers".toList).2.1 (by decide),
   (c5_tier1_idempotent "desktop browser".toList).2.2.1 (by decide),
   (c5_tier1_idempotent "k8s".toList).2.2.2.1 (by decide),
   (c5_tier1_idempotent "REST endpoint".toList).2.2.2.2.1 (by decide),
   (c5_tier1_idempotent "External Stripe".toList).2.2.2.2.2 (by decide)⟩

/-! ### Registry lemmas for the behavioral extractor -/

theorem relKeys_append (l1 l2 : List MElem) :
    relKeys (l1 ++ l2) = relKeys l1 ++ relKeys l2 := by
  simp [relKeys, List.filterMap_append]

theorem relKeys_cls_single (n : String) (s : Option String) (a : List AttrRec)
    (m : List MethRec) (sid : Nat) :
    relKeys [MElem.cls n s a m sid] = [] := rfl

theorem relKeys_rel_single (a b t : String) (ca cb : Option String) (sid : Nat) :
    relKeys [MElem.rel a b t ca cb sid] = [(a, b, t)] := rfl

theorem relKeys_map_clsupd (l : List MElem) (f : MElem → MElem)
    (hf : ∀ e, (match e with
                | MElem.cls n s _ _ sid => ∃ a2 m2, f e = MElem.cls n s a2 m2 sid
                | MElem.rel a b t ca cb sid => f e = MElem.rel a b t ca cb sid)) :
    relKeys (l.map f) = relKeys l := by
  induction l with
  | nil => rfl
  | cons e rest ih =>
    have he := hf e
    cases e with
    | cls n s a m sid =>
      obtain ⟨a2, m2, hfe⟩ := he
      simp only [List.map_cons, relKeys, List.filterMap_cons] at *
      rw [hfe]
      simpa using ih
    | rel a b t ca cb sid =>
      simp only [List.map_cons, relKeys, List.filterMap_cons] at *
      rw [he]
      simpa using ih

theorem relInv_of_eq {st1 st2 : XState}
    (h1 : relKeys st2.model_elements = relKeys st1.model_elements)
    (h2 : st2.found_relationships = st1.found_relationships)
    (h : RelInv st1) : RelInv st2 := by
  unfold RelInv
  rw [h1, h2]
  exact h

theorem add_class_rels (st : XState) (n : String) (s : Option String) (sid : Nat) :
    (add_class st n s sid).found_relationships = st.found_relationships := by
  simp only [add_class]; split <;> rfl

theorem add_class_relKeys (st : XState) (n : String) (s : Option String) (sid : Nat) :
    relKeys (add_class st n s sid).model_elements = relKeys st.model_elements := by
  simp only [add_class]
  split
  · rfl
  · show relKeys (st.model_elements ++ [_]) = _
    rw [relKeys_append, relKeys_cls_single, List.append_nil]

theorem addActor_rels (st : XState) (n : String) (sid : Nat) :
    (addActor st n sid).found_relationships = st.found_relationships := by
  simp only [addActor]; split <;> rfl

theorem addActor_relKeys (st : XState) (n : String) (sid : Nat) :
    relKeys (addActor st n sid).model_elements = relKeys st.model_elements := by
  simp only [addActor]
  split
  · rfl
  · show relKeys (st.model_elements ++ [_]) = _
    rw [relKeys_append, relKeys_cls_single, List.append_nil]

theorem add_attribute_rels (st : XState) (c a : String) (sid : Nat) (v t : String) :
    (add_attribute st c a sid v t).found_relationships = st.found_relationships := by
  simp only [add_attribute]
  split
  · rfl
  · split <;> rfl

theorem add_attribute_relKeys (st : XState) (c a : String) (sid : Nat) (v t : String) :
    relKeys (add_attribute st c a sid v t).model_elements = relKeys st.model_elements := by
  simp only [add_attribute]
  split
  · rfl
  · split
    · rfl
    · show relKeys (st.model_elements.map _) = _
      apply relKeys_map_clsupd
      intro e
      cases e with
      | cls n s a2 m sid2 =>
        by_cases hn : n = normName c <;> simp [hn]
      | rel => simp

theorem add_method_rels (st : XState) (c m : String) (sid : Nat)
    (params : List ParamRec) (v r : String) :
    (add_method st c m sid params v r).found_relationships = st.found_relationships := by
  simp only [add_method]
  split
  · rfl
  · split <;> rfl

theorem add_method_relKeys (st : XState) (c m : String) (sid : Nat)
    (params : List ParamRec) (v r : String) :
    relKeys (add_method st c m sid params v r).model_elements = relKeys st.model_elements := by
  simp only [add_method]
  split
  · rfl
  · split
    · rfl
    · show relKeys (st.model_elements.map _) = _
      apply relKeys_map_clsupd
      intro e
      cases e with
      | cls n s a2 m2 sid2 =>
        by_cases hn : n = normName c <;> simp [hn]
      | rel => simp

theorem add_relationship_of_mem (st : XState) (a b ty : String)
    (ca cb : Option String) (sid : Nat)
    (hk : (normName a, normName b, ty) ∈ st.found_relationships) :
    add_relationship st a b ty ca cb sid = st := by
  simp only [add_relationship]
  simp [hk]

theorem add_class_of_mem (st : XState) (nm : String) (stTy : Option String) (sid : Nat)
    (hcls : (lookupClass st.found_classes (normName nm)).isSome = true) :
    add_class st nm stTy sid = st := by
  simp only [add_class]
  simp [hcls]

theorem relInv_add_relationship (st : XState) (a b ty : String)
    (ca cb : Option String) (sid : Nat)
    (h : RelInv st) : RelInv (add_relationship st a b ty ca cb sid) := by
  by_cases hk : (normName a, normName b, ty) ∈ st.found_relationships
  · rw [add_relationship_of_mem st a b ty ca cb sid hk]
    exact h
  · simp only [add_relationship, hk, ite_false, Bool.false_eq_true, if_false]
    constructor
    · rw [relKeys_append, relKeys_rel_single]
      refine List.Nodup.append h.1 (List.nodup_singleton _) ?_
      intro x hx1 hx2
      rw [List.mem_singleton] at hx2
      subst hx2
      exact hk (h.2 _ hx1)
    · intro k hkk
      rw [relKeys_append, relKeys_rel_single] at hkk
      rcases List.mem_append.mp hkk with hk1 | hk2
      · exact List.mem_append.mpr (Or.inl (h.2 k hk1))
      · exact List.mem_append.mpr (Or.inr hk2)

theorem relInv_applyAct (sid : Nat) (st : XState) (a : Act)
    (h : RelInv st) : RelInv (applyAct sid st a) := by
  cases a with
  | actor n => exact relInv_of_eq (addActor_relKeys st n sid) (addActor_rels st n sid) h
  | klass n s => exact relInv_of_eq (add_class_relKeys st n s sid) (add_class_rels st n s sid) h
  | attrib c at2 v t =>
    exact relInv_of_eq (add_attribute_relKeys st c at2 sid v t)
      (add_attribute_rels st c at2 sid v t) h
  | method c m p v r =>
    exact relInv_of_eq (add_method_relKeys st c m sid p v r)
      (add_method_rels st c m sid p v r) h
  | relate a b t ca cb => exact relInv_add_relationship st a b t ca cb sid h

theorem relInv_foldl {α : Type} (f : XState → α → XState)
    (hf : ∀ s x, RelInv s → RelInv (f s x)) :
    ∀ (l : List α) (s : XState), RelInv s → RelInv (l.foldl f s) := by
  intro l
  induction l with
  | nil => intro s h; exact h
  | cons x xs ih =>
    intro s h
    exact ih (f s x) (hf s x h)

theorem relInv_processStory (st : XState) (s : Story)
    (h : RelInv st) : RelInv (processStory st s) :=
  relInv_foldl (applyAct s.id) (fun s2 a ha => relInv_applyAct s.id s2 a ha) s.trace st h

theorem relInv_inheritStep (acc : XState) (p : String × ClassRec)
    (h : RelInv acc) : RelInv (inheritStep acc p) := by
  unfold inheritStep
  split
  · exact relInv_add_relationship acc p.1 "User" "Inheritance" none none 0 h
  · exact h

theorem relInv_userInheritance (st : XState) (h : RelInv st) :
    RelInv (userInheritance st) := by
  unfold userInheritance
  split
  · exact relInv_foldl inheritStep relInv_inheritStep st.found_classes st h
  · exact h

theorem relInv_injectFor (acc : XState) (cn : String) (h : RelInv acc) :
    RelInv (injectFor acc cn) := by
  unfold injectFor
  split
  · exact h
  · rename_i cd _
    split
    · exact h
    · split
      · have h1 := relInv_of_eq (add_attribute_relKeys acc cn "id" 0 "-" "String")
          (add_attribute_rels acc cn "id" 0 "-" "String") h
        have h2 := relInv_of_eq (add_attribute_relKeys _ cn "name" 0 "-" "String")
          (add_attribute_rels _ cn "name" 0 "-" "String") h1
        have h3 := relInv_of_eq (add_attribute_relKeys _ cn "email" 0 "-" "String")
          (add_attribute_rels _ cn "email" 0 "-" "String") h2
        split
        · split
          · exact relInv_of_eq (add_method_relKeys _ cn "updateStatus" 0 [] "+" "void")
              (add_method_rels _ cn "updateStatus" 0 [] "+" "void")
              (relInv_of_eq (add_method_relKeys _ cn "receiveWork" 0 _ "+" "void")
                (add_method_rels _ cn "receiveWork" 0 _ "+" "void") h3)
          · split
            · exact relInv_of_eq (add_method_relKeys _ cn "login" 0 [] "+" "void")
                (add_method_rels _ cn "login" 0 [] "+" "void") h3
            · split
              · exact relInv_of_eq (add_method_relKeys _ cn "logout" 0 [] "+" "void")
                  (add_method_rels _ cn "logout" 0 [] "+" "void")
                  (relInv_of_eq (add_method_relKeys _ cn "login" 0 [] "+" "void")
                    (add_method_rels _ cn "login" 0 [] "+" "void") h3)
              · exact h3
        · exact h3
      · apply relInv_foldl (fun a op => add_method a cn op 0 [] "+" "void")
          (fun s x hs => relInv_of_eq (add_method_relKeys s cn x 0 [] "+" "void")
            (add_method_rels s cn x 0 [] "+" "void") hs)
        apply relInv_foldl (fun a d => add_attribute a cn d 0 "-" "String")
          (fun s x hs => relInv_of_eq (add_attribute_relKeys s cn x 0 "-" "String")
            (add_attribute_rels s cn x 0 "-" "String") hs)
        exact h

theorem relInv_classExtract (st0 : XState) (stories : List Story) :
    RelInv (classExtract st0 stories) := by
  unfold classExtract
  apply relInv_foldl injectFor relInv_injectFor
  apply relInv_userInheritance
  apply relInv_foldl processStory (fun s x hs => relInv_processStory s x hs)
  exact ⟨List.nodup_nil, by intro k hk; simp [relKeys] at hk⟩

/-! ### Claim C4 -/

/-- C4: within a single run, at most one Relationship model element exists
per normalized `(class_a, class_b, type)` key, and calling
`_add_relationship` (or `_add_class`) again with arguments mapping to an
already-present key is a no-op on the whole state. -/
theorem c4_unique_keys_and_reinsertion_noop (st0 : XState) (stories : List Story)
    (st : XState) (a b ty nm : String) (ca cb : Option String)
    (stTy : Option String) (sid sid2 : Nat)
    (hrel : (normName a, normName b, ty) ∈ st.found_relationships)
    (hcls : (lookupClass st.found_classes (normName nm)).isSome = true) :
    (relKeys (classExtract st0 stories).model_elements).Nodup
    ∧ add_relationship st a b ty ca cb sid = st
    ∧ add_class st nm stTy sid2 = st :=
  ⟨(relInv_classExtract st0 stories).1,
   add_relationship_of_mem st a b ty ca cb sid hrel,
   add_class_of_mem st nm stTy sid2 hcls⟩

/-- Witness for `c4_unique_keys_and_reinsertion_noop` at a concrete state. -/
theorem c4_unique_keys_and_reinsertion_noop_witness :
    (relKeys (classExtract initState []).model_elements).Nodup
    ∧ add_relationship c4State "A" "B" "Association" none none 5 = c4State
    ∧ add_class c4State "User" none 5 = c4State :=
  c4_unique_keys_and_reinsertion_noop initState [] c4State "A" "B" "Association"
    "User" none none none 5 5 (by decide) (by decide)

/-! ### Claim C1 -/

/-- C1: `ClassDiagramExtractor.extract` is not idempotent across runs on the
same instance — it resets `model_elements` and `found_classes` but not
`found_relationships`, so the second run of the very same one-story batch
fails to re-emit the Relationship element of the first run and returns a
different ordered element list. -/
theorem c1_found_relationships_not_reset :
    MElem.rel "Folder" "File" "Aggregation" none none 1
        ∈ (classExtract initState [c1Story]).model_elements
    ∧ MElem.rel "Folder" "File" "Aggregation" none none 1
        ∉ (classExtract (classExtract initState [c1Story]) [c1Story]).model_elements
    ∧ (classExtract (classExtract initState [c1Story]) [c1Story]).model_elements ≠
        (classExtract initState [c1Story]).model_elements := by decide

/-! ### Claim C6 -/

/-- C6, amended: an exception raised inside the per-story body is caught by
the per-story handler, so the batch result is exactly that of the same batch
in which the failing story runs its effect trace without raising — the batch
is never aborted and every remaining story is still processed. -/
theorem c6_exception_caught_batch_unchanged (st0 : XState) (pre post : List Story)
    (bad : Story) (_hb : bad.raises = true) :
    classExtract st0 (pre ++ bad :: post) =
      classExtract st0 (pre ++ { bad with raises := false } :: post) := by
  unfold classExtract
  simp only [List.foldl_append, List.foldl_cons]
  rfl

/-- Witness for `c6_exception_caught_batch_unchanged` on the concrete raising
story. -/
theorem c6_exception_caught_batch_unchanged_witness :
    classExtract initState ([] ++ c6Story :: []) =
      classExtract initState ([] ++ { c6Story with raises := false } :: []) :=
  c6_exception_caught_batch_unchanged initState [] [] c6Story rfl

/-- C6, counterexample: a story whose body raises after registering the class
"Alpha" still contributes that element (with the post-processing defaults) to
the output — not "no elements for this input". -/
theorem c6_counterexample :
    c6Story.raises = true ∧
    (classExtract initState [c6Story]).model_elements =
      [MElem.cls "Alpha" none
        [⟨"id", "-", "String"⟩, ⟨"description", "-", "String"⟩]
        [⟨"save", [], "+", "void"⟩, ⟨"delete", [], "+", "void"⟩] 7] := by decide

/-! ### Claim C7 -/

theorem mem_rels_add_relationship (st : XState) (a b ty : String)
    (ca cb : Option String) (sid : Nat) (k : String × String × String) :
    k ∈ (add_relationship st a b ty ca cb sid).found_relationships ↔
      k ∈ st.found_relationships ∨ k = (normName a, normName b, ty) := by
  by_cases hk : (normName a, normName b, ty) ∈ st.found_relationships
  · rw [add_relationship_of_mem st a b ty ca cb sid hk]
    constructor
    · exact Or.inl
    · rintro (h1 | rfl)
      · exact h1
      · exact hk
  · simp only [add_relationship, hk, ite_false, Bool.false_eq_true, if_false]
    simp [List.mem_append]

theorem mem_rels_inheritFold (l : List (String × ClassRec)) (k : String × String × String) :
    ∀ acc : XState,
      (k ∈ (l.foldl inheritStep acc).found_relationships ↔
        k ∈ acc.found_relationships ∨
          ∃ p ∈ l, (p.2.stereotype = some "actor" ∧ p.1 ≠ "User" ∧ p.1 ≠ "System") ∧
            k = (normName p.1, "User", "Inheritance")) := by
  induction l with
  | nil => intro acc; simp
  | cons p ps ih =>
    intro acc
    rw [List.foldl_cons, ih]
    by_cases hc : p.2.stereotype = some "actor" ∧ p.1 ≠ "User" ∧ p.1 ≠ "System"
    · rw [show inheritStep acc p = add_relationship acc p.1 "User" "Inheritance" none none 0 from
          by unfold inheritStep; rw [if_pos hc]]
      rw [mem_rels_add_relationship]
      have hU : normName "User" = "User" := by decide
      rw [hU]
      constructor
      · rintro ((h1 | rfl) | ⟨q, hq, hcq, rfl⟩)
        · exact Or.inl h1
        · exact Or.inr ⟨p, List.mem_cons_self p ps, hc, rfl⟩
        · exact Or.inr ⟨q, List.mem_cons_of_mem p hq, hcq, rfl⟩
      · rintro (h1 | ⟨q, hq, hcq, rfl⟩)
        · exact Or.inl (Or.inl h1)
        · rcases List.mem_cons.mp hq with rfl | hq2
          · exact Or.inl (Or.inr rfl)
          · exact Or.inr ⟨q, hq2, hcq, rfl⟩
    · rw [show inheritStep acc p = acc from by unfold inheritStep; rw [if_neg hc]]
      constructor
      · rintro (h1 | ⟨q, hq, hcq, rfl⟩)
        · exact Or.inl h1
        · exact Or.inr ⟨q, List.mem_cons_of_mem p hq, hcq, rfl⟩
      · rintro (h1 | ⟨q, hq, hcq, rfl⟩)
        · exact Or.inl h1
        · rcases List.mem_cons.mp hq with rfl | hq2
          · exact absurd hcq hc
          · exact Or.inr ⟨q, hq2, hcq, rfl⟩

/-- C7, amended: the post-processing pass adds an Inheritance edge
`(c, "User")` exactly for the actor-stereotyped classes `c ∉ {User, System}`,
and it runs if and only if a class named "User" is present in the registry —
whether or not that class was ever discovered as an actor. -/
theorem c7_inheritance_iff (st : XState)
    (hkeys : ∀ p ∈ st.found_classes, normName p.1 = p.1) :
    ((lookupClass st.found_classes "User").isSome = false → userInheritance st = st)
    ∧ ((lookupClass st.found_classes "User").isSome = true → ∀ c : String,
        ((c, "User", "Inheritance") ∈ (userInheritance st).found_relationships ↔
          (c, "User", "Inheritance") ∈ st.found_relationships ∨
            ∃ cd, (c, cd) ∈ st.found_classes ∧ cd.stereotype = some "actor" ∧
              c ≠ "User" ∧ c ≠ "System")) := by
  constructor
  · intro hno
    unfold userInheritance
    rw [hno]
    simp
  · intro hyes c
    unfold userInheritance
    rw [hyes]
    simp only [if_true]
    rw [mem_rels_inheritFold]
    constructor
    · rintro (h1 | ⟨p, hp, hcond, heq⟩)
      · exact Or.inl h1
      · have hc : c = p.1 := by
          have := (Prod.mk.injEq _ _ _ _).mp heq
          rw [hkeys p hp] at this
          exact this.1
        subst hc
        refine Or.inr ⟨p.2, ?_, hcond.1, hcond.2.1, hcond.2.2⟩
        have : (p.1, p.2) = p := rfl
        rw [this]
        exact hp
    · rintro (h1 | ⟨cd, hmem, hst, hne1, hne2⟩)
      · exact Or.inl h1
      · refine Or.inr ⟨(c, cd), hmem, ⟨hst, hne1, hne2⟩, ?_⟩
        rw [hkeys (c, cd) hmem]

/-- Witness for `c7_inheritance_iff` at the concrete state `c7WState`. -/
theorem c7_inheritance_iff_witness :
    ("Admin", "User", "Inheritance") ∈ (userInheritance c7WState).found_relationships :=
  ((c7_inheritance_iff c7WState (by decide)).2 (by decide) "Admin").mpr
    (Or.inr ⟨⟨[], [], some "actor"⟩, by decide, rfl, by decide, by decide⟩)

/-- C7, counterexample: in the `c7Story` batch "User" is never discovered as
an actor — it ends the run as a plain class with stereotype `none` — yet the
Inheritance edge Admin → User is still emitted, because the guard only checks
presence of the name "User" in the class registry. -/
theorem c7_counterexample :
    (lookupClass (classExtract initState [c7Story]).found_classes "User" =
      some ⟨[⟨"id", "-", "String"⟩, ⟨"description", "-", "String"⟩],
            [⟨"save", [], "+", "void"⟩, ⟨"delete", [], "+", "void"⟩], none⟩)
    ∧ MElem.rel "Admin" "User" "Inheritance" none none 0
        ∈ (classExtract initState [c7Story]).model_elements := by decide

/-! ### Claim C9: use-case name cleaning -/

theorem findSub_pos {l p : List Char} (h : startsWithL l p = true) :
    findSub l p = some 0 := by
  unfold findSub
  rw [h]
  rfl

theorem findSub_nil_neg {p : List Char} (h : startsWithL [] p = false) :
    findSub [] p = none := by
  unfold findSub
  rw [h]
  rfl

theorem findSub_cons_neg {c : Char} {rest p : List Char}
    (h : startsWithL (c :: rest) p = false) :
    findSub (c :: rest) p = (findSub rest p).map (· + 1) := by
  conv_lhs => unfold findSub
  rw [h]
  rfl

theorem foldl_omin_zero : ∀ (l : List (Option Nat)) (acc : Option Nat),
    (acc = some 0 ∨ some 0 ∈ l) → l.foldl omin acc = some 0 := by
  intro l
  induction l with
  | nil =>
    intro acc h
    rcases h with h | h
    · simpa using h
    · simp at h
  | cons x xs ih =>
    intro acc h
    rw [List.foldl_cons]
    rcases h with h | h
    · subst h
      apply ih
      left
      cases x with
      | none => rfl
      | some m =>
        show (if m < 0 then some m else some 0) = some 0
        simp
    · rcases List.mem_cons.mp h with rfl | hm
      · apply ih
        left
        cases acc with
        | none => rfl
        | some m =>
          show (if 0 < m then some 0 else some m) = some 0
          split_ifs with h0
          · rfl
          · simp only [Option.some.injEq]
            omega
      · exact ih _ (Or.inr hm)

theorem foldl_omin_none : ∀ l : List (Option Nat),
    (∀ x ∈ l, x = none) → l.foldl omin none = none := by
  intro l
  induction l with
  | nil => intro _; rfl
  | cons x xs ih =>
    intro hall
    rw [List.foldl_cons, hall x (List.mem_cons_self x xs)]
    exact ih (fun y hy => hall y (List.mem_cons_of_mem x hy))

theorem omin_map_succ (a b : Option Nat) :
    omin (a.map (· + 1)) (b.map (· + 1)) = (omin a b).map (· + 1) := by
  cases a with
  | none => cases b <;> rfl
  | some m =>
    cases b with
    | none => rfl
    | some i =>
      show (if i + 1 < m + 1 then some (i + 1) else some (m + 1)) =
        Option.map (· + 1) (if i < m then some i else some m)
      by_cases h : i < m
      · rw [if_pos h, if_pos (by omega : i + 1 < m + 1)]
        rfl
      · rw [if_neg h, if_neg (by omega : ¬ i + 1 < m + 1)]
        rfl

theorem foldl_omin_map_succ : ∀ (l : List (Option Nat)) (acc : Option Nat),
    (l.map (Option.map (· + 1))).foldl omin (acc.map (· + 1)) =
      (l.foldl omin acc).map (· + 1) := by
  intro l
  induction l with
  | nil => intro acc; rfl
  | cons x xs ih =>
    intro acc
    rw [List.map_cons, List.foldl_cons, List.foldl_cons, omin_map_succ, ih]

theorem minStopsL_eq_earliest (stops : List (List Char)) :
    ∀ lt : List Char, minStopsL stops lt = earliestStopIdx stops lt := by
  intro lt
  induction lt with
  | nil =>
    unfold minStopsL earliestStopIdx
    rw [show (stops.foldl (fun acc s => omin acc (findSub [] s)) none) =
          ((stops.map (fun s => findSub [] s)).foldl omin none) from
        (List.foldl_map _ _ _ _).symm]
    by_cases h : stops.any (fun s => startsWithL [] s)
    · rw [if_pos h]
      apply foldl_omin_zero
      right
      rcases List.any_eq_true.mp h with ⟨s, hs, hsw⟩
      exact (findSub_pos hsw) ▸ List.mem_map_of_mem _ hs
    · rw [if_neg h]
      apply foldl_omin_none
      intro x hx
      rcases List.mem_map.mp hx with ⟨s, hs, rfl⟩
      apply findSub_nil_neg
      rcases hb : startsWithL [] s with _ | _
      · rfl
      · exact absurd (List.any_eq_true.mpr ⟨s, hs, hb⟩) h
  | cons c rest ih =>
    unfold minStopsL earliestStopIdx
    rw [show (stops.foldl (fun acc s => omin acc (findSub (c :: rest) s)) none) =
          ((stops.map (fun s => findSub (c :: rest) s)).foldl omin none) from
        (List.foldl_map _ _ _ _).symm]
    by_cases h : stops.any (fun s => startsWithL (c :: rest) s)
    · rw [if_pos h]
      apply foldl_omin_zero
      right
      rcases List.any_eq_true.mp h with ⟨s, hs, hsw⟩
      exact (findSub_pos hsw) ▸ List.mem_map_of_mem _ hs
    · rw [if_neg h]
      have hmap : stops.map (fun s => findSub (c :: rest) s) =
          (stops.map (fun s => findSub rest s)).map (Option.map (· + 1)) := by
        rw [List.map_map]
        apply List.map_congr_left
        intro s hs
        show findSub (c :: rest) s = Option.map (· + 1) (findSub rest s)
        apply findSub_cons_neg
        rcases hb : startsWithL (c :: rest) s with _ | _
        · rfl
        · exact absurd (List.any_eq_true.mpr ⟨s, hs, hb⟩) h
      rw [hmap,
        show (none : Option Nat) = Option.map (· + 1) none from rfl,
        foldl_omin_map_succ, ← ih]
      unfold minStopsL
      rw [show (stops.foldl (fun acc s => omin acc (findSub rest s)) none) =
            ((stops.map (fun s => findSub rest s)).foldl omin none) from
          (List.foldl_map _ _ _ _).symm]

theorem clean_eq_amended (t : List Char) :
    clean_use_case_name t = clean_use_case_name_amended t := by
  unfold clean_use_case_name clean_use_case_name_amended truncAtStops claimTrunc pyMinStops
  simp only [minStopsL_eq_earliest]

/-- C9, amended: on the regex fallback path, the extracted use-case name is
the text following "want to" transformed by removing parenthetical asides
first, truncating at the earliest stop phrase (so that / in order to / so /
when / using / to get / because), truncating at a period, stripping
surrounding punctuation, and capitalizing (first letter uppercased, rest
lowercased) — not title-casing. -/
theorem c9_use_case_name_pipeline (text : List Char) :
    useCaseNameViaRegex text = (wantToRest text).map clean_use_case_name_amended := by
  unfold useCaseNameViaRegex
  cases h : wantToRest text with
  | none => rfl
  | some t => simp [clean_eq_amended]

/-- C9, counterexample: on the story "As a user, I want to view my Files to
get insights" the code cleans to "View my files" (truncating at " to get "
and capitalizing), while the claim's pipeline (no "to get" stop,
title-casing) yields "View My Files To Get Insights". -/
theorem c9_counterexample :
    useCaseNameViaRegex "As a user, I want to view my Files to get insights".toList ≠
      (wantToRest "As a user, I want to view my Files to get insights".toList).map
        clean_use_case_name_claimed := by decide


/-! ### Claim C10: the groq-JSON dispatch -/

theorem pyIn_dict_true {l : List (String × PVal)} {key : String} {v : PVal}
    (h : (l.find? (fun p => p.1 == key)).map Prod.snd = some v) :
    pyIn key (.pdict l) = .ok true := by
  show Except.ok (l.any fun p => p.1 == key) = Except.ok true
  rcases hf : l.find? (fun p => p.1 == key) with _ | x
  · rw [hf] at h
    simp at h
  · have hx := List.find?_some hf
    have hmem := List.mem_of_find?_eq_some hf
    rw [List.any_eq_true.mpr ⟨x, hmem, hx⟩]

theorem pySubscript_dict {l : List (String × PVal)} {key : String} {v : PVal}
    (h : (l.find? (fun p => p.1 == key)).map Prod.snd = some v) :
    pySubscript (.pdict l) key = .ok v := by
  show (match (l.find? (fun p => p.1 == key)).map Prod.snd with
        | some v2 => Except.ok v2
        | none => Except.error ()) = Except.ok v
  rw [h]

/-- C10, amended: for a story parsing to a JSON object whose `groq_output`
value is an object containing the extractor-specific field, the UseCase name
comes from the cleaned JSON payload and the Sequence and Activity extractors
build their elements from the payload alone, skipping the NLP/regex fallback
entirely (the result does not depend on the tagger participants or the text);
for a parsed value on which `'groq_output' in data` is `False` (an object
without the key, a string not containing it, a list not containing it, or the
`{}` kept after a decode error), the fallback path is used, with defaults
sender "User" / receiver "System" (Sequence) and lane "User" when no ACTOR
entity is found (Activity); for texts parsing to JSON numbers, booleans or
`null` the membership test raises `TypeError`, which the per-story handler
catches, and the story contributes no elements. -/
theorem c10_groq_dispatch
    (entries g : List (String × PVal)) (items : List PVal)
    (participants actorEnts : List String) (text : List Char) (sid : Nat)
    (data lanes lane0 : PVal) (raw : String)
    (h1 : (entries.find? (fun p => p.1 == "groq_output")).map Prod.snd = some (.pdict g))
    (h2 : (g.find? (fun p => p.1 == "interaction")).map Prod.snd = some (.plist items))
    (h3 : (g.find? (fun p => p.1 == "flow_steps")).map Prod.snd = some (.plist items))
    (h4 : ((g.find? (fun p => p.1 == "actor")).map Prod.snd).getD (.plist [.pstr "Customer"]) = lanes)
    (h5 : pyIndex0 lanes = .ok lane0)
    (h6 : pyIn "groq_output" data = .ok false)
    (h7 : (g.find? (fun p => p.1 == "use_case")).map Prod.snd = some (.pstr raw))
    (h8 : ¬ clean_use_case_name raw.toList = []) :
    (extract_sequences (.pdict entries) participants text sid =
      items.map (fun it =>
        ⟨((g.find? (fun p => p.1 == "actor")).map Prod.snd).getD (.pstr "User"),
         ((g.find? (fun p => p.1 == "class")).map Prod.snd).getD (.pstr "System"),
         it, sid⟩))
    ∧ (extract_activities (.pdict entries) actorEnts text sid =
        items.map (fun it => ⟨lane0, it, sid⟩))
    ∧ (useCaseNameOf (.pdict entries) text = .ok (some (clean_use_case_name raw.toList)))
    ∧ (extract_sequences data participants text sid = seqFallback participants text sid)
    ∧ (extract_activities data actorEnts text sid = actFallback actorEnts text sid)
    ∧ (seqFallback [] text sid =
        [⟨.pstr "User", .pstr "System", .pstr (String.mk (seqFallbackMessage text)), sid⟩])
    ∧ (actFallback [] text sid =
        (wantToSteps text).map
          (fun stp => ⟨.pstr "User", .pstr (String.mk (pyCapitalize (pyStrip stp))), sid⟩)) := by
  refine ⟨?_, ?_, ?_, ?_, ?_, ?_, ?_⟩
  · unfold extract_sequences
    rw [pyIn_dict_true h1]
    dsimp only
    rw [pySubscript_dict h1]
    dsimp only
    rw [pyIn_dict_true h2]
    dsimp only
    rw [pySubscript_dict h2]
    rfl
  · unfold extract_activities
    rw [pyIn_dict_true h1]
    dsimp only
    rw [pySubscript_dict h1]
    dsimp only
    rw [pyIn_dict_true h3]
    dsimp only
    rw [pySubscript_dict h3]
    show (match pyGet (.pdict g) "actor" (.plist [.pstr "Customer"]) with
          | .error _ => []
          | .ok lanes2 =>
            (match pyIter (.plist items) with
             | .ok items2 =>
               (match pyIndex0 lanes2 with
                | .ok l0 => items2.map (fun it => (⟨l0, it, sid⟩ : ActStep))
                | .error _ => [])
             | .error _ => [])) = _
    rw [show pyGet (.pdict g) "actor" (.plist [.pstr "Customer"]) = .ok lanes from by
      show Except.ok
          ((Option.map Prod.snd (List.find? (fun p => p.1 == "actor") g)).getD
            (PVal.plist [PVal.pstr "Customer"])) = Except.ok lanes
      rw [h4]]
    show (match pyIndex0 lanes with
          | .ok l0 => items.map (fun it => (⟨l0, it, sid⟩ : ActStep))
          | .error _ => []) = _
    rw [h5]
  · unfold useCaseNameOf
    rw [pyIn_dict_true h1]
    dsimp only
    rw [pySubscript_dict h1]
    dsimp only
    rw [pyIn_dict_true h7]
    dsimp only
    rw [pySubscript_dict h7]
    simp only [h8, ite_false]
  · unfold extract_sequences
    rw [h6]
  · unfold extract_activities
    rw [h6]
  · rfl
  · rfl

/-- C10, counterexample: the story text "3" parses to the JSON number 3,
which is not "such JSON", yet the fallback path is NOT used: `'groq_output'
in 3` raises `TypeError`, the handler catches it, and the story contributes
no elements, while the claimed fallback would emit the default message. -/
theorem c10_counterexample :
    extract_sequences (.pint 3) [] "3".toList 1 = []
    ∧ seqFallback [] "3".toList 1 =
        [⟨.pstr "User", .pstr "System", .pstr "process request", 1⟩]
    ∧ extract_sequences (.pint 3) [] "3".toList 1 ≠ seqFallback [] "3".toList 1 := by
  refine ⟨rfl, rfl, ?_⟩
  intro h
  rw [show extract_sequences (.pint 3) [] "3".toList 1 = ([] : List SeqMsg) from rfl,
    show seqFallback [] "3".toList 1 =
      [⟨.pstr "User", .pstr "System", .pstr "process request", 1⟩] from rfl] at h
  exact List.cons_ne_nil _ _ h.symm

/-! ### Claim C2: the database-to-database guard -/

/-- C2: on the sentence "PostgreSQL sends data to MySQL", with both endpoints
resolving to database-like components and no service-like component in the
sentence, the relationship list nevertheless ends up holding the
PostgreSQL → MySQL edge: the earlier append block (lines 1766–1782) runs
before the database-to-database guard, whose `continue` only skips the second
append (lines 1818–1828), so the edge the guard means to drop has already
been added. -/
theorem c2_db_guard_runs_after_append :
    (processMatch defaultConfig [] c2State "PostgreSQL sends data to MySQL".toList
        "PostgreSQL".toList "MySQL".toList none "sends to").relationships =
      [⟨"PostgreSQL", "MySQL", "sends to"⟩] := by decide

/-- Witness for `c10_groq_dispatch` at a concrete payload (note that a
string-valued `actor` field makes the Activity lane its first character,
exactly as `lanes[0]` does in Python). -/
theorem c10_groq_dispatch_witness :
    (extract_sequences (.pdict c10Entries) [] "t".toList 4 =
      [⟨.pstr "Customer", .pstr "System", .pstr "login", 4⟩])
    ∧ (extract_activities (.pdict c10Entries) [] "t".toList 4 =
      [⟨.pstr "C", .pstr "login", 4⟩])
    ∧ (useCaseNameOf (.pdict c10Entries) "t".toList = .ok (some "Log an activity".toList))
    ∧ (extract_sequences (.pstr "hello") [] "t".toList 4 = seqFallback [] "t".toList 4) := by
  have h := c10_groq_dispatch c10Entries c10G [.pstr "login"] [] [] "t".toList 4
    (.pstr "hello") (.pstr "Customer") (.pstr "C") "log an activity"
    rfl rfl rfl rfl rfl rfl rfl (by decide)
  exact ⟨h.1, h.2.1, h.2.2.1, h.2.2.2.1⟩


/-! ### Claim C8: the entity overlay -/

theorem filterMap_charSpan_eq_filter (d : PDoc) (tagger : List Span) :
    tagger.filterMap (charSpan d) =
      tagger.filter (fun sp => (charSpan d sp).isSome) := by
  induction tagger with
  | cons sp rest ih =>
    rw [List.filterMap_cons, List.filter_cons]
    rcases h : charSpan d sp with _ | x
    · simp only [h, Option.isSome_none, Bool.false_eq_true, if_false]
      exact ih
    · have hx : x = sp := by
        unfold charSpan at h
        split at h
        · injection h with h2
          exact h2.symm
        · exact absurd h (by simp)
      subst hx
      simp only [h, Option.isSome_some, if_true]
      rw [ih]
  | nil => rfl

/-- C8, amended: every tagger span whose offsets fail to align with the
parse's token boundaries is dropped individually (the surviving list is
exactly the aligned sub-list); when the surviving spans are mutually
non-overlapping they replace the parse's entities wholesale; when they
conflict, the `doc.ents` assignment raises, the `except` swallows it, and
the parse keeps its original entities — no span is applied at all, so there
is no last-overlay-wins resolution.  The component-extractor variant behaves
the same, except that an empty surviving list still wipes the entities. -/
theorem c8_overlay_characterization (d : PDoc) (tagger : List Span) :
    (tagger.filterMap (charSpan d) = tagger.filter (fun sp => (charSpan d sp).isSome))
    ∧ (tagger.filterMap (charSpan d) ≠ [] →
        noOverlap (tagger.filterMap (charSpan d)) = true →
        (overlayBase d tagger).ents = tagger.filterMap (charSpan d))
    ∧ (noOverlap (tagger.filterMap (charSpan d)) = false → overlayBase d tagger = d)
    ∧ (tagger.filterMap (charSpan d) = [] → overlayBase d tagger = d)
    ∧ (noOverlap (tagger.filterMap (charSpan d)) = true →
        (overlayComponent d tagger).ents = tagger.filterMap (charSpan d))
    ∧ (noOverlap (tagger.filterMap (charSpan d)) = false → overlayComponent d tagger = d) := by
  refine ⟨filterMap_charSpan_eq_filter d tagger, ?_, ?_, ?_, ?_, ?_⟩
  · intro hne hok
    unfold overlayBase
    rw [if_pos hne, if_pos hok]
  · intro hbad
    unfold overlayBase
    by_cases hne : tagger.filterMap (charSpan d) = []
    · rw [if_neg (fun hcon => hcon hne)]
    · rw [if_pos hne, if_neg (by simp [hbad])]
  · intro hempty
    unfold overlayBase
    rw [if_neg (fun hcon => hcon hempty)]
  · intro hok
    unfold overlayComponent
    rw [if_pos hok]
  · intro hbad
    unfold overlayComponent
    rw [if_neg (by simp [hbad])]

/-- C8, counterexample: two tagger spans with identical, perfectly aligned
offsets and different labels both survive alignment, yet the final entity
list is empty — the conflicting assignment is dropped wholesale instead of
the last-applied span winning. -/
theorem c8_counterexample :
    charSpan c8Doc ⟨0, 3, "A"⟩ = some ⟨0, 3, "A"⟩
    ∧ charSpan c8Doc ⟨0, 3, "B"⟩ = some ⟨0, 3, "B"⟩
    ∧ (overlayBase c8Doc [⟨0, 3, "A"⟩, ⟨0, 3, "B"⟩]).ents = [] := by decide

/-- Witness for `c8_overlay_characterization`: each implication applied at a
concrete document. -/
theorem c8_overlay_characterization_witness :
    (overlayBase c8Doc [⟨0, 3, "X"⟩, ⟨1, 3, "Y"⟩]).ents = [Span.mk 0 3 "X"]
    ∧ overlayBase c8Doc [⟨0, 3, "A"⟩, ⟨0, 3, "B"⟩] = c8Doc
    ∧ overlayBase c8Doc [⟨1, 2, "Z"⟩] = c8Doc
    ∧ (overlayComponent c8Doc [⟨0, 3, "X"⟩]).ents = [Span.mk 0 3 "X"]
    ∧ overlayComponent c8Doc [⟨0, 3, "A"⟩, ⟨0, 3, "B"⟩] = c8Doc := by
  refine ⟨?_, ?_, ?_, ?_, ?_⟩
  · exact (c8_overlay_characterization c8Doc [⟨0, 3, "X"⟩, ⟨1, 3, "Y"⟩]).2.1
      (by decide) (by decide)
  · exact (c8_overlay_characterization c8Doc [⟨0, 3, "A"⟩, ⟨0, 3, "B"⟩]).2.2.1 (by decide)
  · exact (c8_overlay_characterization c8Doc [⟨1, 2, "Z"⟩]).2.2.2.1 (by decide)
  · exact (c8_overlay_characterization c8Doc [⟨0, 3, "X"⟩]).2.2.2.2.1 (by decide)
  · exact (c8_overlay_characterization c8Doc [⟨0, 3, "A"⟩, ⟨0, 3, "B"⟩]).2.2.2.2.2 (by decide)


end FYP
